import Mathlib

/-!
Verification development for the agentic backtesting pipeline
(`src/backtester`).  The Python sources are shallowly embedded:

* floats are modelled by `ℚ` (IEEE special values are outside the model;
  where the code checks finiteness, every modelled value is finite);
* pandas Series of returns are modelled by `List ℚ`;
* Python dicts are modelled by association lists in insertion order,
  looked up from the front (first binding wins, as dict keys are unique);
* `datetime.date` values are modelled by their proleptic-Gregorian day
  ordinals (`ℤ`), via the standard days-from-civil formula, so that date
  comparison and day subtraction behave as in Python;
* exceptions are modelled by `Except String`, the message mirroring the
  raised message where the claims depend on it.
-/

namespace Backtester

/-- Decidable equality of modelled exception results. -/
instance {ε α : Type} [DecidableEq ε] [DecidableEq α] : DecidableEq (Except ε α) := fun a b =>
  match a, b with
  | .ok x, .ok y =>
    if h : x = y then .isTrue (by rw [h]) else .isFalse (by intro hh; cases hh; exact h rfl)
  | .error x, .error y =>
    if h : x = y then .isTrue (by rw [h]) else .isFalse (by intro hh; cases hh; exact h rfl)
  | .ok _, .error _ => .isFalse (by intro hh; cases hh)
  | .error _, .ok _ => .isFalse (by intro hh; cases hh)

/-- Python `s.strip()` (ASCII whitespace; implemented over the
character list so that proofs can evaluate it). -/
def pyStrip (s : String) : String :=
  ⟨((s.data.dropWhile Char.isWhitespace).reverse.dropWhile Char.isWhitespace).reverse⟩

/-- Splitting a character list at commas (`value.split(",")`). -/
def splitCommaAux : List Char → List Char → List (List Char)
  | [], acc => [acc.reverse]
  | c :: rest, acc =>
    if c = ',' then acc.reverse :: splitCommaAux rest []
    else splitCommaAux rest (c :: acc)

/-- Python truthiness of an optional string (`None` and `""` are falsy). -/
def strTruthy : Option String → Bool
  | none => false
  | some s => s ≠ ""

/-- Python `a or default` where `a` is an optional string: the default is
returned when `a` is `None` or empty. -/
def pyOrElse (a : Option String) (d : String) : String :=
  match a with
  | none => d
  | some s => if s = "" then d else s

/-- Python `repr` of a list of strings, as interpolated into f-strings
such as `f"verifier failed checks: {failures}"`. -/
def pyListRepr (xs : List String) : String :=
  "[" ++ String.intercalate ", " (xs.map (fun x => "'" ++ x ++ "'")) ++ "]"

/-- Day ordinal of a proleptic-Gregorian calendar date (days-from-civil;
zero at 1970-01-01).  Only used with non-negative years, where `ℤ`
division agrees with the mathematical quotient. -/
def dateOrd (y m d : ℤ) : ℤ :=
  let y' := if m ≤ 2 then y - 1 else y
  let era := y' / 400
  let yoe := y' - era * 400
  let mp := if 2 < m then m - 3 else m + 9
  let doy := (153 * mp + 2) / 5 + d - 1
  let doe := yoe * 365 + yoe / 4 - yoe / 100 + doy
  era * 146097 + doe - 719468

/-- Value of an entry of a `StrategySpec.params` map (`Dict[str, Any]`);
the task library only ever stores numbers, strings and lists of integers
there. -/
inductive PVal where
  | num (q : ℚ)
  | str (s : String)
  | ilist (xs : List ℤ)
deriving DecidableEq, Repr

/-- Lookup in an association list modelling a Python dict
(`d.get(k)` / `d[k]`; keys are unique, first binding wins). -/
def alookup (k : String) : List (String × PVal) → Option PVal
  | [] => none
  | e :: rest => if k = e.1 then some e.2 else alookup k rest

/-- Python `base.copy(); base.update(upd)` on dicts: keys of `base` keep
their position and receive `upd`'s value when present; keys of `upd` not
in `base` are appended in `upd`'s order. -/
def dictUpdate (base upd : List (String × PVal)) : List (String × PVal) :=
  base.map (fun e => (e.1, (alookup e.1 upd).getD e.2)) ++
    upd.filter (fun e => (alookup e.1 base).isNone)

/-- The validated strategy specification (`schemas.StrategySpec`).
Dates are day ordinals, floats are rationals. -/
structure StrategySpec where
  name : String
  task : String
  description : String
  «universe» : List String
  frequency : String
  signal : String
  rules : List (String × String)
  tools : List String
  required_metrics : List String
  params : List (String × PVal)
  costs_bps : ℚ
  start_date : ℤ
  end_date : ℤ
  seed : ℤ
  max_leverage : ℚ
deriving DecidableEq, Repr

/-- The canonical result record (`schemas.BacktestResult`).  `pf = none`
models an infinite profit factor (`float("inf")`); all other metric
fields are finite rationals. -/
structure BacktestResult where
  ann_return : ℚ
  ann_vol : ℚ
  sharpe : ℚ
  max_dd : ℚ
  turnover : ℚ
  trades : ℤ
  hit_rate : ℚ
  pf : Option ℚ
  seed : ℤ
  period_start : ℤ
  period_end : ℤ
  artifact_paths : List String
  diagnostics : List (String × ℚ)
  issues : List String
deriving DecidableEq, Repr

/-- The terminal record of a run (`schemas.WorkflowState`). -/
structure WorkflowState where
  spec : StrategySpec
  code_artifacts : List String
  run_logs : List String
  metrics : List (String × ℚ)
  figures : List String
  verdict : String
  tool_refs : List String
  attempts : ℕ
deriving DecidableEq, Repr

/-! ## Metric derivation (`utils/metrics.py`, `build_backtest_result`)

The cost/hit-rate/profit-factor section (lines 32-41) is embedded
exactly; the sqrt-based metrics (`ann_vol`, `sharpe`, `max_dd`) and the
geometric annualized return are real-valued and play no role in any
claim, so `BacktestResult`s reaching the verifier carry them as opaque
rational inputs. -/

/-- A pandas Series of per-period strategy returns. -/
abbrev ReturnSeries := List ℚ

namespace Metrics

/-- `cost_drag = turnover * (spec.costs_bps / 10000.0)` . -/
def cost_drag (turnover costs_bps : ℚ) : ℚ := turnover * (costs_bps / 10000)

/-- `net_returns = returns - cost_drag` (pandas broadcasts the scalar). -/
def net_returns (returns : ReturnSeries) (drag : ℚ) : ReturnSeries :=
  returns.map (fun r => r - drag)

/-- `hit_rate = float((net_returns > 0).mean())`: the mean of the 0/1
indicator of a positive cost-adjusted return. -/
def hit_rate (net : ReturnSeries) : ℚ :=
  (net.map (fun r => if 0 < r then (1 : ℚ) else 0)).sum / (net.length : ℚ)

/-- `loss_sum = net_returns[net_returns < 0].sum()` . -/
def loss_sum (net : ReturnSeries) : ℚ := (net.filter (fun r => r < 0)).sum

/-- `net_returns[net_returns > 0].sum()` . -/
def gain_sum (net : ReturnSeries) : ℚ := (net.filter (fun r => 0 < r)).sum

/-- `pf = gain_sum / abs(loss_sum) if loss_sum != 0 else float("inf")`;
`none` models the infinite profit factor. -/
def profit_factor (net : ReturnSeries) : Option ℚ :=
  if loss_sum net ≠ 0 then some (gain_sum net / |loss_sum net|) else none

/-- Python `int(q)` (truncation toward zero). -/
def ratTrunc (q : ℚ) : ℤ := if 0 ≤ q then ⌊q⌋ else ⌈q⌉

/-- `trades = int(turnover * len(returns))` . -/
def trades_count (turnover : ℚ) (n : ℕ) : ℤ := ratTrunc (turnover * n)

end Metrics

/-! ## Result verification (`agents/test_result_verifier.py`) -/

namespace Verifier

/-- `_finite_metrics`: all four headline metrics are finite.  Rational
values are always finite, so within the model this check holds of every
result (IEEE `inf`/`nan` floats are outside the model). -/
def finite_metrics (_r : BacktestResult) : Bool := true

/-- `_non_trivial_performance` with its default `tol = 1e-1`. -/
def non_trivial_performance (r : BacktestResult) : Bool :=
  1/10 < |r.ann_return| + r.ann_vol + |r.max_dd| + r.turnover

/-- `_rerun_guard(limit)`: `ann_return >= limit`. -/
def rerun_guard (limit : ℚ) (r : BacktestResult) : Bool := limit ≤ r.ann_return

/-- `_turnover_guard(limit)`: `turnover <= limit`. -/
def turnover_guard (limit : ℚ) (r : BacktestResult) : Bool := r.turnover ≤ limit

/-- `_sharpe_guard`: `-5.0 <= sharpe <= 5.0`. -/
def sharpe_guard (r : BacktestResult) : Bool := -5 ≤ r.sharpe ∧ r.sharpe ≤ 5

/-- `_hit_rate_guard`: `0.0 <= hit_rate <= 1.0`. -/
def hit_rate_guard (r : BacktestResult) : Bool := 0 ≤ r.hit_rate ∧ r.hit_rate ≤ 1

/-- The fixed check registry `CHECKS`, in its dict insertion order. -/
def CHECKS : List (String × (BacktestResult → Bool)) :=
  [ ("finite_metrics", finite_metrics)
  , ("non_trivial_performance", non_trivial_performance)
  , ("return_reasonable", rerun_guard 0)
  , ("turnover_reasonable", turnover_guard 5)
  , ("sharpe_in_range", sharpe_guard)
  , ("hit_rate_bounds", hit_rate_guard) ]

/-- `BTVerifierAgent.evaluate` with the default check set: collects the
names of all failing checks and reports `allPassed` as their absence. -/
def evaluate (r : BacktestResult) : Bool × List String :=
  let fails := (CHECKS.filter (fun c => !(c.2 r))).map Prod.fst
  (fails.length == 0, fails)

end Verifier

/-! ## Tool retrieval (`agents/retriever.py`) -/

namespace Retriever

/-- A resolved tool descriptor (`retriever.ToolSpec`). -/
structure ToolSpec where
  name : String
  module : String
  symbol : String
  path : String
  description : String
deriving DecidableEq, Repr

/-- Registry entry: module, symbol, file, description. -/
structure ToolInfo where
  module : String
  symbol : String
  file : String
  description : String
deriving DecidableEq, Repr

/-- The static registry `TOOLKIT` (descriptions abbreviated: they are
opaque strings carried into the descriptor unchanged). -/
def TOOLKIT : List (String × ToolInfo) :=
  [ ("returns", ⟨"backtester.kb.returns", "pct_returns", "returns.py",
      "pct_returns(prices) -> DataFrame of daily pct changes."⟩)
  , ("sharpe", ⟨"backtester.kb.sharpe", "sharpe_ratio", "sharpe.py",
      "sharpe_ratio(r, rf, periods) -> float annualized Sharpe."⟩)
  , ("drawdown", ⟨"backtester.kb.drawdown", "max_drawdown", "drawdown.py",
      "max_drawdown(r) -> float maximum peak-to-trough drawdown."⟩)
  , ("normalize_weights", ⟨"backtester.kb.strategies", "normalize_weights", "strategies.py",
      "normalize_weights(weights, max_leverage) -> DataFrame with unit gross leverage."⟩)
  , ("compute_turnover", ⟨"backtester.kb.strategies", "compute_turnover", "strategies.py",
      "compute_turnover(weights) -> float average daily absolute weight change."⟩)
  , ("walk_forward", ⟨"backtester.kb.walk_forward", "walk_forward_validate", "walk_forward.py",
      "walk_forward_validate(prices, spec, ...) -> dict of robustness metrics."⟩) ]

/-- `TOOLKIT.get(name)`. -/
def lookupInfo (name : String) : Option ToolInfo :=
  match TOOLKIT.find? (fun e => e.1 = name) with
  | some e => some e.2
  | none => none

/-- Descriptor built for a registered name (`ToolSpec(...)` constructor
call inside `fetch`, including the `kb_root/file` path). -/
def toolSpecOf (kbRoot name : String) (info : ToolInfo) : ToolSpec :=
  ⟨name, info.module, info.symbol, kbRoot ++ "/" ++ info.file, info.description⟩

/-- The loop of `RetrieverAgent.fetch`: `seen` holds the names already
emitted (only registered names are ever added, as in the source). -/
def fetchAux (kbRoot : String) (seen : List String) : List String → List ToolSpec
  | [] => []
  | n :: rest =>
    if n ∈ seen then fetchAux kbRoot seen rest
    else
      match lookupInfo n with
      | none => fetchAux kbRoot seen rest
      | some info => toolSpecOf kbRoot n info :: fetchAux kbRoot (n :: seen) rest

/-- `RetrieverAgent.fetch`. -/
def fetch (kbRoot : String) (needs : List String) : List ToolSpec :=
  fetchAux kbRoot [] needs

/-- Specification-side helper: the requested names with duplicates
removed, keeping the first occurrence of each (the claim's
"first-occurrence order of the request, with duplicates removed"). -/
def eraseDupsFirstAux (seen : List String) : List String → List String
  | [] => []
  | n :: rest =>
    if n ∈ seen then eraseDupsFirstAux seen rest
    else n :: eraseDupsFirstAux (n :: seen) rest

/-- First-occurrence de-duplication of a request list. -/
def eraseDupsFirst (needs : List String) : List String := eraseDupsFirstAux [] needs

end Retriever

/-! ## Executor output normalization (`agents/runner.py`, `_prepare_returns`) -/

namespace Runner

/-- A value stored under some key of a strategy's output dict.  `other`
stands for any Python value that is neither a number nor a pandas Series
nor a string (e.g. `None` or a list); string values are outside the
model's domain. -/
inductive RVal where
  | series (xs : List ℚ)
  | num (q : ℚ)
  | other
deriving DecidableEq

/-- The payload returned by a candidate's `run_strategy`: a bare Series,
a dict, or any other object. -/
inductive RPayload where
  | series (xs : List ℚ)
  | dict (entries : List (String × RVal))
  | other
deriving DecidableEq

/-- Dict lookup (`payload.get(k)` / `k in payload`). -/
def rlookup (k : String) : List (String × RVal) → Option RVal
  | [] => none
  | e :: rest => if k = e.1 then some e.2 else rlookup k rest

/-- Python `float(v)`: numbers convert, anything else modelled here
raises `TypeError`.  (Numeric strings, which `float` would parse, are
outside the model's domain; `float` of a Series is version-dependent and
also excluded.) -/
def pyFloat : RVal → Except String ℚ
  | .num q => .ok q
  | .series _ => .error "TypeError: float() argument cannot be a Series"
  | .other => .error "TypeError: float() argument must be a string or a real number"

/-- `raw_diag = {k: v for k, v in payload.items() if k != "returns"}`. -/
def raw_diag (entries : List (String × RVal)) : List (String × RVal) :=
  entries.filter (fun e => e.1 ≠ "returns")

/-- `RunnerAgent._prepare_returns`: normalizes the candidate payload to
`(returns, diagnostics, turnover)` or raises.  Mirrors the source's
order: missing-`returns` check, then `float` conversion of `turnover`,
then the Series type check on `returns`. -/
def prepare_returns (payload : RPayload) :
    Except String (List ℚ × List (String × ℚ) × ℚ) :=
  match payload with
  | .series xs => .ok (xs, [], 0)
  | .dict entries =>
    match rlookup "returns" entries with
    | none => .error "Strategy output dict must contain 'returns'."
    | some rv =>
      match (match rlookup "turnover" (raw_diag entries) with
             | none => Except.ok (0 : ℚ)
             | some v => pyFloat v) with
      | .error e => .error e
      | .ok turnover =>
        let diagnostics := (raw_diag entries).filterMap
          (fun e => match e.2 with | .num q => some (e.1, q) | _ => none)
        match rv with
        | .series xs => .ok (xs, diagnostics, turnover)
        | _ => .error "Strategy returns must be a pandas Series."
  | .other => .error "Strategy output must be a pandas Series or dict."

/-- Whether an `Except` result is a success. -/
def exceptIsOk {ε α : Type} : Except ε α → Bool
  | .ok _ => true
  | .error _ => false

end Runner

/-! ## Orchestrator state machine (`orchestrator.py`)

The graph state (`GraphState` TypedDict) is a record; keys that may be
absent before their producing node runs are `Option`-valued.  External
collaborators (spec guard outcome, LLM coder/fixer, `py_compile`
verification, runner execution, reporter paths) are oracles collected in
an `Env`; indexing them by the current attempt number is fully general
because each Code/CodeVerify/Run/ResultVerify visit of a run carries a
distinct attempt value.  An uncaught Python exception (coder/fixer
raising, or reading a missing key) sends the machine to the `crash`
node: the run produces no `WorkflowState`. -/

namespace Orchestrator

open Verifier Retriever

/-- `DEFAULT_TOOLS` of `orchestrator.py`. -/
def DEFAULT_TOOLS : List String :=
  ["returns", "sharpe", "drawdown", "normalize_weights", "compute_turnover"]

/-- The mutable graph state threaded through the nodes. -/
structure GState where
  spec : Option StrategySpec
  tools : List ToolSpec
  tool_names : List String
  strategy_path : Option String
  attempt : ℕ
  artifacts : List String
  run_logs : List String
  last_code : Option String
  last_error : Option String
  failed_checks : List String
  result : Option BacktestResult
  verdict : String
  code_ok : Option Bool
  runtime_ok : Option Bool
  verifier_ok : Option Bool
  final_reason : Option String
  workflow : Option WorkflowState
deriving DecidableEq

/-- The initial state built in `Orchestrator.execute`. -/
def initState : GState :=
  { spec := none, tools := [], tool_names := [], strategy_path := none
  , attempt := 1, artifacts := [], run_logs := [], last_code := none
  , last_error := none, failed_checks := [], result := none
  , verdict := "fail", code_ok := none, runtime_ok := none
  , verifier_ok := none, final_reason := none, workflow := none }

/-- Nodes of the LangGraph state graph, plus the two terminal
micro-states (`done` after the report, `crash` on an uncaught
exception). -/
inductive Node where
  | guard | retrieve | code | codeVerify | run | resultVerify
  | report | done | crash
deriving DecidableEq, Repr

/-- Outcome labels of the conditional edges. -/
inductive Route where
  | ok | retry | stop
deriving DecidableEq, Repr

/-- The oracles for the external collaborators of one run. -/
structure Env where
  /-- Result of `SpecGuardAgent.validate_and_struct` (`none` = raises). -/
  guardSpec : Option StrategySpec
  /-- Knowledge-base root passed to the `RetrieverAgent`. -/
  kbRoot : String
  /-- `CoderAgent.write_module` at a given attempt: `(path, code)`,
  `none` = generation raises. -/
  coderGen : ℕ → Option (String × String)
  /-- `CodeFixerAgent.repair` at a given attempt:
  `(path, hint, code)`, `none` = generation raises. -/
  fixerGen : ℕ → Option (String × String × String)
  /-- `CodeVerifierAgent.verify` at a given attempt: `none` = passes,
  `some msg` = raises with message `msg`. -/
  codeVerify : ℕ → Option String
  /-- `RunnerAgent.run` at a given attempt. -/
  runOutcome : ℕ → Except String BacktestResult
  /-- `ReporterAgent.write_summary` path. -/
  summaryPath : String → BacktestResult → String
  /-- `ReporterAgent.write_failure` path. -/
  failurePath : String → String → List String → String

/-- `_increment_attempt`. -/
def increment_attempt (s : GState) : GState := { s with attempt := s.attempt + 1 }

/-- `_bump_seed`: `spec.model_copy(update={"seed": spec.seed + 1})`;
reading a missing `spec` key would raise (`none`). -/
def bump_seed (s : GState) : Option GState :=
  s.spec.map fun sp => { s with spec := some { sp with seed := sp.seed + 1 } }

/-- `_node_guard`. -/
def node_guard (env : Env) (s : GState) : Option GState :=
  env.guardSpec.map fun sp =>
    { s with spec := some sp, failed_checks := [], last_error := none }

/-- `_node_retrieve`: `spec.tools or DEFAULT_TOOLS` (an empty list is
falsy). -/
def node_retrieve (env : Env) (s : GState) : Option GState :=
  s.spec.map fun sp =>
    let tools := fetch env.kbRoot (if sp.tools = [] then DEFAULT_TOOLS else sp.tools)
    { s with tools := tools, tool_names := tools.map (·.name) }

/-- `_node_code`: first attempt with no prior failure invokes the coder,
otherwise the fixer (which also clears `last_error`/`failed_checks`).
The branch condition uses Python truthiness of `last_error`. -/
def node_code (env : Env) (s : GState) : Option GState :=
  match s.spec with
  | none => none
  | some _ =>
    if s.attempt = 1 ∧ strTruthy s.last_error = false ∧ s.failed_checks = [] then
      (env.coderGen s.attempt).map fun pc =>
        { s with
          run_logs := s.run_logs ++
            ["attempt " ++ toString s.attempt ++ ": coder generated strategy at " ++ pc.1]
        , strategy_path := some pc.1, last_code := some pc.2
        , artifacts := s.artifacts ++ [pc.1] }
    else
      (env.fixerGen s.attempt).map fun phc =>
        { s with
          run_logs := s.run_logs ++
            ["attempt " ++ toString s.attempt ++ ": fixer regenerated strategy with hint '"
              ++ phc.2.1 ++ "'"]
        , last_error := none, failed_checks := []
        , strategy_path := some phc.1, last_code := some phc.2.2
        , artifacts := s.artifacts ++ [phc.1] }

/-- `_node_code_verify`: on an exception the attempt is incremented and
the seed bumped inside the node itself. -/
def node_code_verify (env : Env) (s : GState) : Option GState :=
  match env.codeVerify s.attempt with
  | none =>
    some { s with
      code_ok := some true,
      run_logs := s.run_logs ++
        ["attempt " ++ toString s.attempt ++ ": code verification passed"] }
  | some msg =>
    bump_seed (increment_attempt
      { s with
        code_ok := some false, last_error := some msg,
        run_logs := s.run_logs ++
          ["attempt " ++ toString s.attempt ++ ": code verification failed -> " ++ msg] })

/-- `_node_run`. -/
def node_run (env : Env) (s : GState) : Option GState :=
  match env.runOutcome s.attempt with
  | .ok r =>
    some { s with
      result := some r, runtime_ok := some true,
      run_logs := s.run_logs ++
        ["attempt " ++ toString s.attempt ++ ": runner executed successfully"] }
  | .error msg =>
    bump_seed (increment_attempt
      { s with
        runtime_ok := some false, last_error := some msg,
        run_logs := s.run_logs ++
          ["attempt " ++ toString s.attempt ++ ": runtime error -> " ++ msg] })

/-- `_node_result_verify`.  The node prints `result.ann_return` before
its `if not result` guard, so a missing result raises (`none`) and the
guard's skip branch is unreachable (a pydantic model is always truthy).
On success the verdict becomes `"pass"`; on failure attempt increments
and seed bumps. -/
def node_result_verify (s : GState) : Option GState :=
  match s.result with
  | none => none
  | some r =>
    let ev := evaluate r
    let s1 := { s with result := some { r with issues := ev.2 }, failed_checks := ev.2 }
    if ev.1 then
      some { s1 with
        verifier_ok := some true, verdict := "pass",
        run_logs := s1.run_logs ++
          ["attempt " ++ toString s.attempt ++ ": verifier passed"] }
    else
      bump_seed (increment_attempt
        { s1 with
          verifier_ok := some false,
          last_error := some ("verifier failed checks: " ++ pyListRepr ev.2),
          run_logs := s1.run_logs ++
            ["attempt " ++ toString s.attempt ++ ": verifier failed checks: "
              ++ pyListRepr ev.2] })

/-- `_node_report`: builds the terminal `WorkflowState`; metrics are
populated only on a passing verdict with a (truthy) result present. -/
def node_report (env : Env) (maxAttempts : ℕ) (s : GState) : Option GState :=
  match s.spec with
  | none => none
  | some sp =>
    let failureFigure :=
      env.failurePath sp.name
        (pyOrElse s.final_reason (pyOrElse s.last_error "unknown failure")) s.run_logs
    let (metrics, figures) :=
      if s.verdict = "pass" then
        match s.result with
        | some r =>
          ( [ ("ann_return", r.ann_return), ("ann_vol", r.ann_vol)
            , ("sharpe", r.sharpe), ("max_dd", r.max_dd), ("turnover", r.turnover) ]
          , [env.summaryPath sp.name r] )
        | none => ([], [failureFigure])
      else ([], [failureFigure])
    let w : WorkflowState :=
      { spec := sp, code_artifacts := s.artifacts, run_logs := s.run_logs,
        metrics := metrics, figures := figures, verdict := s.verdict,
        tool_refs := s.tool_names, attempts := min s.attempt maxAttempts }
    some { s with workflow := some w }

/-- `_route_code_verify` (the routing helper also writes
`final_reason` into the state on the stop branch). -/
def route_code_verify (maxAttempts : ℕ) (s : GState) : Route × GState :=
  if s.code_ok.getD false then (.ok, s)
  else if maxAttempts < s.attempt then
    (.stop, { s with final_reason := some (pyOrElse s.last_error "code verification failed") })
  else (.retry, s)

/-- `_route_run`. -/
def route_run (maxAttempts : ℕ) (s : GState) : Route × GState :=
  if s.runtime_ok.getD false then (.ok, s)
  else if maxAttempts < s.attempt then
    (.stop, { s with final_reason := some (pyOrElse s.last_error "runtime error") })
  else (.retry, s)

/-- `_route_result_verify` (the stop branch also forces the verdict to
`"fail"`). -/
def route_result_verify (maxAttempts : ℕ) (s : GState) : Route × GState :=
  if s.verifier_ok.getD false then (.ok, s)
  else if maxAttempts < s.attempt then
    (.stop, { s with
      final_reason := some (pyOrElse s.last_error "verifier failed"),
      verdict := "fail" })
  else (.retry, s)

/-- One transition of the compiled graph: run the current node's
function, then follow its (conditional) edge.  `crash` absorbs uncaught
exceptions; `done` absorbs the end of the graph. -/
def step (env : Env) (maxAttempts : ℕ) : Node × GState → Node × GState
  | (.guard, s) =>
    match node_guard env s with
    | none => (.crash, s)
    | some s' => (.retrieve, s')
  | (.retrieve, s) =>
    match node_retrieve env s with
    | none => (.crash, s)
    | some s' => (.code, s')
  | (.code, s) =>
    match node_code env s with
    | none => (.crash, s)
    | some s' => (.codeVerify, s')
  | (.codeVerify, s) =>
    match node_code_verify env s with
    | none => (.crash, s)
    | some s' =>
      match route_code_verify maxAttempts s' with
      | (.ok, s'') => (.run, s'')
      | (.retry, s'') => (.code, s'')
      | (.stop, s'') => (.report, s'')
  | (.run, s) =>
    match node_run env s with
    | none => (.crash, s)
    | some s' =>
      match route_run maxAttempts s' with
      | (.ok, s'') => (.resultVerify, s'')
      | (.retry, s'') => (.code, s'')
      | (.stop, s'') => (.report, s'')
  | (.resultVerify, s) =>
    match node_result_verify s with
    | none => (.crash, s)
    | some s' =>
      match route_result_verify maxAttempts s' with
      | (.ok, s'') => (.report, s'')
      | (.retry, s'') => (.code, s'')
      | (.stop, s'') => (.report, s'')
  | (.report, s) =>
    match node_report env maxAttempts s with
    | none => (.crash, s)
    | some s' => (.done, s')
  | (.done, s) => (.done, s)
  | (.crash, s) => (.crash, s)

/-- The run of the machine: `trace env maxAttempts n` is the
configuration after `n` transitions from the entry point. -/
def trace (env : Env) (maxAttempts : ℕ) : ℕ → Node × GState
  | 0 => (.guard, initState)
  | n + 1 => step env maxAttempts (trace env maxAttempts n)

/-- Number of visits to the Code stage within the first `n` transitions. -/
def codeVisits (env : Env) (maxAttempts : ℕ) : ℕ → ℕ
  | 0 => 0
  | n + 1 =>
    codeVisits env maxAttempts n +
      (if (trace env maxAttempts n).1 = .code then 1 else 0)

/-- Whether the ResultVerify stage ran and passed at step `k`. -/
def resultVerifyPassed (env : Env) (maxAttempts k : ℕ) : Bool :=
  (trace env maxAttempts k).1 = Node.resultVerify &&
    (match (trace env maxAttempts k).2.result with
     | some r => (evaluate r).1
     | none => false)

end Orchestrator

/-! ## Spec validation (`agents/spec_guard.py`, `tasks.py`)

The input domain is a structured payload (a Python dict keyed by the
`StrategySpec` field names) whose values are already of the right
runtime type, except that the three list-valued fields may also arrive
as comma-separated strings (the only string-coercion branch the claims
exercise).  Free-text prompts, JSON-encoded `params` strings, numeric
strings for floats/seeds, and ISO strings for dates are accepted by the
source via parsing branches that are outside this domain; every payload
in the domain reaches the same merge/check pipeline as in the source.
A field can be absent, explicitly `None`, or a value — the three cases
the merge and the required-field check distinguish. -/

namespace SpecGuard

/-- A payload entry: absent key, explicit `None`, or a value. -/
inductive Pv (α : Type) where
  | absent
  | null
  | val (a : α)
deriving DecidableEq

/-- A list-valued field as supplied by the caller: either a
comma-separated string (coerced by `_coerce_payload`) or a list. -/
inductive UVal where
  | raw (s : String)
  | list (xs : List String)
deriving DecidableEq

/-- The user payload (dict) keyed by `StrategySpec` field names. -/
structure Payload where
  task : Pv String := .absent
  name : Pv String := .absent
  description : Pv String := .absent
  «universe» : Pv UVal := .absent
  frequency : Pv String := .absent
  signal : Pv String := .absent
  rules : Pv (List (String × String)) := .absent
  tools : Pv UVal := .absent
  required_metrics : Pv UVal := .absent
  params : Pv (List (String × PVal)) := .absent
  costs_bps : Pv ℚ := .absent
  start_date : Pv ℤ := .absent
  end_date : Pv ℤ := .absent
  seed : Pv ℤ := .absent
  max_leverage : Pv ℚ := .absent
deriving DecidableEq

/-- A task template of `TASK_LIBRARY`: every field populated. -/
structure Template where
  task : String
  name : String
  description : String
  «universe» : List String
  frequency : String
  signal : String
  rules : List (String × String)
  tools : List String
  required_metrics : List String
  params : List (String × PVal)
  costs_bps : ℚ
  start_date : ℤ
  end_date : ℤ
  seed : ℤ
  max_leverage : ℚ
deriving DecidableEq

/-- `tasks.BASE_UNIVERSE`. -/
def BASE_UNIVERSE : List String :=
  [ "SPY", "QQQ", "IWM", "EFA", "EEM", "TLT", "IEF", "GLD", "USO", "VNQ"
  , "HYG", "LQD", "DBC", "XLK", "XLF", "XLE", "XLU", "XLY", "XLI", "XLB"
  , "XLP", "XOM", "CVX" ]

/-- `tasks.DEFAULT_TOOLS`. -/
def TASK_DEFAULT_TOOLS : List String :=
  ["returns", "sharpe", "drawdown", "normalize_weights", "compute_turnover"]

/-- `tasks.DATA_BOUNDS["start_date"]` = 2005-01-03. -/
def BOUNDS_START : ℤ := dateOrd 2005 1 3

/-- `tasks.DATA_BOUNDS["end_date"]` = 2025-10-31. -/
def BOUNDS_END : ℤ := dateOrd 2025 10 31

/-- `tasks.DEFAULT_DATES["start_date"]` = 2012-01-03. -/
def DEFAULT_START : ℤ := dateOrd 2012 1 3

/-- `tasks._base_spec`: the shared template defaults (the long
signal/description prompt strings are abbreviated — they are opaque data
carried through merging unchanged and no claim inspects them). -/
def base_spec (name description : String) : Template :=
  { task := name, name := name, description := description
  , «universe» := BASE_UNIVERSE.take 6
  , frequency := "daily", signal := "", rules := []
  , tools := TASK_DEFAULT_TOOLS
  , required_metrics := ["ann_return", "sharpe", "max_dd"]
  , params := [], costs_bps := 1
  , start_date := DEFAULT_START, end_date := BOUNDS_END
  , seed := 42, max_leverage := 1 }

/-- The `"momentum_daily"` entry of `TASK_LIBRARY`. -/
def momentumDailyTemplate : Template :=
  { base_spec "momentum_daily" "Daily top-k cross-sectional momentum on ETFs." with
    signal := "Compute 63-day compounded returns and rank assets cross-sectionally."
  , rules := [("entry", "rank_desc top_k; signal = N-day average of top_k indicator")
             , ("exit", "continuous rebalancing; no discrete hold-N-days tickets")]
  , params := [("lookback", .num 63), ("top_k", .num 3), ("holding_period", .num 20)] }

/-- `tasks.TASK_LIBRARY` (string payloads abbreviated; all
control-flow-relevant values — universes, frequencies, params, dates —
exact). -/
def TASK_LIBRARY : List (String × Template) :=
  [ ("momentum_daily", momentumDailyTemplate)
  , ("momentum_weekly",
      { base_spec "momentum_weekly" "Weekly top-k cross-sectional momentum on ETFs." with
        frequency := "weekly"
      , signal := "Compute trailing 26-week compounded returns and rank assets weekly."
      , rules := [("entry", "weekly rank_desc top_k; signal = N-week moving average")
                 , ("exit", "rebalance weekly using the smoothed signal")]
      , params := [("lookback", .num 26), ("top_k", .num 2), ("holding_period", .num 8)] })
  , ("mean_reversion",
      { base_spec "mean_reversion" "Short-term cross-sectional contrarian rotation." with
        «universe» := ["SPY"]
      , signal := "For each stock, compute a z-score and trade against it."
      , rules := [("entry", "open or adjust positions when the z-score passes z_entry")
                 , ("exit", "close positions when the z-score falls inside z_exit")]
      , params := [("lookback", .num 10), ("z_entry", .num (3/2)), ("z_exit", .num (1/5))] })
  , ("breakout",
      { base_spec "breakout" "Donchian-style long breakout with a trailing stop." with
        signal := "Enter long above the rolling high; exit below the trailing stop."
      , rules := [("entry", "open a long position when close breaks the rolling high")
                 , ("exit", "exit the long position when close breaks the trailing stop")]
      , params := [("window", .num 55), ("stop_window", .num 20)] })
  , ("pair_trading",
      { base_spec "pair_trading" "Stat-arb pair trading toggling between tests." with
        «universe» := ["XOM", "CVX"]
      , signal := "Spread z-score between highly correlated pair."
      , rules := [("entry", "spread zscore > entry_z"), ("exit", "zscore < exit_z")]
      , params := [("lookback", .num 60), ("mode", .str "cointegration")
                  , ("correlation_threshhold", .num (3/5)), ("entry_z", .num (3/2))
                  , ("exit_z", .num (1/2))]
      , tools := TASK_DEFAULT_TOOLS })
  , ("volatility_targeting",
      { base_spec "volatility_targeting" "Vol-targeted exposure using realized vol." with
        signal := "Scale exposure inversely with trailing volatility."
      , rules := [("entry", "target_vol / realized_vol"), ("exit", "vol > cap")]
      , params := [("lookback", .num 20), ("target_vol", .num (3/25))] })
  , ("risk_parity",
      { base_spec "risk_parity" "Toy risk-parity allocating inverse vol weights." with
        «universe» := ["SPY", "TLT", "GLD", "IEF"]
      , signal := "Inverse volatility weights across asset classes."
      , rules := [("entry", "allocate inverse std"), ("exit", "rebalance monthly")]
      , params := [("lookback", .num 60)] })
  , ("weekday_mask",
      { base_spec "weekday_mask" "Hard weekday seasonality mask on exposures." with
        signal := "Apply a binary weekday filter to the basket."
      , rules := [("entry", "if the weekday is allowed, set exposure to 1.0")
                 , ("exit", "if the weekday is not allowed, set exposure to 0.0")
                 , ("weighting", "Equally weight all allowed assets on allowed weekdays.")]
      , params := [("allowed_weekdays", .ilist [0, 2, 4])] })
  , ("regime_filter_ma",
      { base_spec "regime_filter_ma" "Trend regime filter with smoothed MA crossover." with
        signal := "Smooth the fast/slow moving-average crossover indicator."
      , rules := [("entry", "increase exposure as the smoothed indicator moves toward 1")
                 , ("exit", "decrease exposure as it moves toward 0")]
      , params := [("fast", .num 50), ("slow", .num 200), ("smoothing_window", .num 5)] }) ]

/-- A merged-dict entry (every key exists after `{**template,
**overrides}`; it may carry an explicit `None`). -/
inductive Mv (α : Type) where
  | null
  | val (a : α)
deriving DecidableEq

/-- The merged dict, before pydantic validation. -/
structure Merged where
  task : Mv String
  name : Mv String
  description : Mv String
  «universe» : Mv UVal
  frequency : Mv String
  signal : Mv String
  rules : Mv (List (String × String))
  tools : Mv UVal
  required_metrics : Mv UVal
  params : Mv (List (String × PVal))
  costs_bps : Mv ℚ
  start_date : Mv ℤ
  end_date : Mv ℤ
  seed : Mv ℤ
  max_leverage : Mv ℚ
deriving DecidableEq

/-- Python `(payload.get("task") or payload.get("name") or "")`:
the first truthy string (`None`, a missing key and `""` are falsy). -/
def pyFirstString (a b : Pv String) : String :=
  match a with
  | .val s =>
    if s = "" then (match b with | .val t => t | _ => "") else s
  | _ => match b with | .val t => t | _ => ""

/-- `[v.strip() for v in value.split(",") if v.strip()]`. -/
def splitComma (s : String) : List String :=
  (((splitCommaAux s.data []).map (fun cs => pyStrip ⟨cs⟩))).filter (fun v => v ≠ "")

/-- `_coerce_payload` on the modelled domain: comma-separated strings
for the three list-valued fields become lists; every other field is
passed through (its value already has its final runtime type). -/
def coerceUVal : Pv UVal → Pv UVal
  | .val (.raw s) => .val (.list (splitComma s))
  | v => v

/-- `_coerce_payload`. -/
def coerce (p : Payload) : Payload :=
  { p with
    «universe» := coerceUVal p.«universe»
  , tools := coerceUVal p.tools
  , required_metrics := coerceUVal p.required_metrics }

/-- One field of `{**template, **overrides}`: an override key (even an
explicit `None`) wins; an absent key keeps the template value. -/
def mergeField {α : Type} (t : α) (o : Pv α) : Mv α :=
  match o with
  | .absent => .val t
  | .null => .null
  | .val a => .val a

/-- The special `params` merge: when the caller supplied a `params`
key, the template's params dict is copied and updated.  An explicit
`None` makes `dict.update(None)` raise `TypeError` (uncaught). -/
def mergedParams (t : Template) (ov : Payload) :
    Except String (Mv (List (String × PVal))) :=
  match ov.params with
  | .absent => .ok (.val t.params)
  | .null => .error "TypeError: update argument must be a mapping"
  | .val p => .ok (.val (dictUpdate t.params p))

/-- `{**template, **overrides}` followed by `merged["task"] =
task_name` and `merged.setdefault("name", task_name)` (a no-op: the
template always carries `name`). -/
def mergeAll (task_name : String) (t : Template) (ov : Payload)
    (ps : Mv (List (String × PVal))) : Merged :=
  { task := .val task_name
  , name := mergeField t.name ov.name
  , description := mergeField t.description ov.description
  , «universe» := mergeField (UVal.list t.«universe») ov.«universe»
  , frequency := mergeField t.frequency ov.frequency
  , signal := mergeField t.signal ov.signal
  , rules := mergeField t.rules ov.rules
  , tools := mergeField (UVal.list t.tools) ov.tools
  , required_metrics := mergeField (UVal.list t.required_metrics) ov.required_metrics
  , params := ps
  , costs_bps := mergeField t.costs_bps ov.costs_bps
  , start_date := mergeField t.start_date ov.start_date
  , end_date := mergeField t.end_date ov.end_date
  , seed := mergeField t.seed ov.seed
  , max_leverage := mergeField t.max_leverage ov.max_leverage }

/-- `SpecGuardAgent.REQUIRED_KEYS`. -/
def REQUIRED_KEYS : List String :=
  ["task", "universe", "frequency", "start_date", "end_date"]

/-- Whether `k not in merged or merged[k] in (None, "")` holds for a
required key.  Note that a list value (even `[]`) compares unequal to
both `None` and `""`, so an empty universe list is not "missing". -/
def keyMissing (m : Merged) : String → Bool
  | "task" => (match m.task with | .null => true | .val s => s = "")
  | "universe" => (match m.«universe» with | .null => true | .val _ => false)
  | "frequency" => (match m.frequency with | .null => true | .val s => s = "")
  | "start_date" => (match m.start_date with | .null => true | .val _ => false)
  | "end_date" => (match m.end_date with | .null => true | .val _ => false)
  | _ => false

/-- `missing = [k for k in REQUIRED_KEYS if ...]`. -/
def missingKeys (m : Merged) : List String := REQUIRED_KEYS.filter (keyMissing m)

/-- Extract a merged value, failing like pydantic does on an explicit
`None` for a non-optional field. -/
def mvGet {α : Type} (fieldName : String) : Mv α → Except String α
  | .null => .error ("pydantic validation error: " ++ fieldName ++ " must not be None")
  | .val a => .ok a

/-- Extract a list-valued merged field (pydantic `List[str]` rejects a
bare string; post-coercion the modelled values are always lists). -/
def mvGetList (fieldName : String) : Mv UVal → Except String (List String)
  | .null => .error ("pydantic validation error: " ++ fieldName ++ " must not be None")
  | .val (.raw _) => .error ("pydantic validation error: " ++ fieldName ++ " must be a list")
  | .val (.list xs) => .ok xs

/-- `StrategySpec.model_validate(merged)`: every non-optional field must
be a value of its declared runtime type (an explicit `None` or a
non-list for a `List[str]` field is a pydantic validation error), the
`Literal` check on `frequency`, the `costs_bps` field validator and the
date-order model validator.  The distinct pydantic error texts are
collapsed into one generic message; no claim depends on them. -/
def modelValidate (m : Merged) : Except String StrategySpec :=
  match m.name, m.task, m.description, m.«universe», m.frequency, m.signal, m.rules,
        m.tools, m.required_metrics, m.params, m.costs_bps, m.start_date, m.end_date,
        m.seed, m.max_leverage with
  | .val name, .val task, .val description, .val (.list univ), .val frequency,
    .val signal, .val rules, .val (.list tools), .val (.list required_metrics),
    .val params, .val costs_bps, .val start_date, .val end_date, .val seed,
    .val max_leverage =>
    if ¬(frequency = "daily" ∨ frequency = "weekly") then
      .error "pydantic validation error: frequency must be daily or weekly"
    else if costs_bps < 0 then
      .error "costs_bps must be non-negative"
    else if end_date ≤ start_date then
      .error "start_date must be earlier than end_date"
    else
      .ok ⟨name, task, description, univ, frequency, signal, rules, tools,
           required_metrics, params, costs_bps, start_date, end_date, seed,
           max_leverage⟩
  | _, _, _, _, _, _, _, _, _, _, _, _, _, _, _ =>
    .error "pydantic validation error" 

/-- `_enforce_constraints`. -/
def enforce (spec : StrategySpec) : Except String Unit := do
  if ¬ spec.«universe».all (fun x => x ∈ BASE_UNIVERSE) then
    throw "Universe contains symbols outside frozen dataset."
  if spec.start_date < BOUNDS_START ∨ BOUNDS_END < spec.end_date then
    throw "Requested window exceeds data freeze."
  if spec.frequency = "weekly" ∧ spec.end_date - spec.start_date < 26 * 7 then
    throw "Weekly strategies require at least 26 weeks of data."
  if spec.task = "pair_trading" then
    match (alookup "mode" spec.params).getD (.str "cointegration") with
    | .str s =>
      if ¬(s = "cointegration" ∨ s = "distance") then
        throw "pair_trading mode must be 'cointegration' or 'distance'."
    | _ => throw "pair_trading mode must be 'cointegration' or 'distance'."
  return ()

/-- `SpecGuardAgent.validate_and_struct` on a structured payload. -/
def validate (p : Payload) : Except String StrategySpec :=
  match List.lookup (pyStrip (pyFirstString p.task p.name)) TASK_LIBRARY with
  | none =>
    .error ("Task '" ++ pyStrip (pyFirstString p.task p.name) ++ "' not in frozen suite.")
  | some t =>
    match mergedParams t (coerce p) with
    | .error e => .error e
    | .ok ps =>
      match missingKeys (mergeAll (pyStrip (pyFirstString p.task p.name)) t (coerce p) ps) with
      | [] =>
        match modelValidate (mergeAll (pyStrip (pyFirstString p.task p.name)) t (coerce p) ps) with
        | .error e => .error e
        | .ok spec =>
          match enforce spec with
          | .error e => .error e
          | .ok _ => .ok spec
      | ms => .error ("Strategy spec missing required fields: " ++ pyListRepr ms)

/-- `spec.model_dump()` viewed as a payload fed back to the validator:
every key present, every value of its final runtime type. -/
def dumpPayload (s : StrategySpec) : Payload :=
  { task := .val s.task, name := .val s.name, description := .val s.description
  , «universe» := .val (.list s.«universe»), frequency := .val s.frequency
  , signal := .val s.signal, rules := .val s.rules
  , tools := .val (.list s.tools)
  , required_metrics := .val (.list s.required_metrics)
  , params := .val s.params, costs_bps := .val s.costs_bps
  , start_date := .val s.start_date, end_date := .val s.end_date
  , seed := .val s.seed, max_leverage := .val s.max_leverage }

end SpecGuard

/-! ## Claim-side helper definitions and concrete witness inputs -/

namespace Runner

/-- The scalar turnover the normalization extracts from a dict payload:
`0` when the key is absent, the number when numeric, undefined (`none`)
when `float` would raise. -/
def turnoverVal (entries : List (String × RVal)) : Option ℚ :=
  match rlookup "turnover" (raw_diag entries) with
  | none => some 0
  | some (.num q) => some q
  | some _ => none

/-- The numeric-valued non-`returns` entries of a dict payload, in
order — the diagnostics the claim describes. -/
def numericDiags (entries : List (String × RVal)) : List (String × ℚ) :=
  (raw_diag entries).filterMap
    (fun e => match e.2 with | .num q => some (e.1, q) | _ => none)

/-- Counterexample payload: a dict that does contain a `"returns"`
Series but whose `"turnover"` value is non-numeric (e.g. `None`), so
`float(...)` raises. -/
def c3cex : RPayload := .dict [("returns", .series [1/100]), ("turnover", .other)]

/-- A well-formed dict payload used as witness input. -/
def c3okEntries : List (String × RVal) :=
  [("returns", .series [1/10]), ("turnover", .num 2), ("alpha", .num 3), ("note", .other)]

end Runner

namespace Metrics

/-- Witness return series. -/
def rs0 : ReturnSeries := [1/10, -1/20]

/-- Witness result whose `hit_rate` is produced by the metric
derivation (other fields irrelevant to the hit-rate claim). -/
def c10res : BacktestResult :=
  { ann_return := 1, ann_vol := 0, sharpe := 0, max_dd := 0, turnover := 1
  , trades := 0, hit_rate := hit_rate (net_returns rs0 (cost_drag 1 5))
  , pf := none, seed := 0, period_start := 0, period_end := 1
  , artifact_paths := [], diagnostics := [], issues := [] }

end Metrics

namespace SpecGuard

/-- Counterexample input for the required-field claim: an explicitly
empty universe list. -/
def c4emptyUniverse : Payload :=
  { task := .val "momentum_daily", «universe» := .val (.list []) }

/-- The spec the validator produces for `c4emptyUniverse` (the
momentum-daily template with an empty universe). -/
def c4spec : StrategySpec :=
  { name := "momentum_daily", task := "momentum_daily"
  , description := "Daily top-k cross-sectional momentum on ETFs."
  , «universe» := []
  , frequency := "daily"
  , signal := "Compute 63-day compounded returns and rank assets cross-sectionally."
  , rules := [("entry", "rank_desc top_k; signal = N-day average of top_k indicator")
             , ("exit", "continuous rebalancing; no discrete hold-N-days tickets")]
  , tools := TASK_DEFAULT_TOOLS
  , required_metrics := ["ann_return", "sharpe", "max_dd"]
  , params := [("lookback", .num 63), ("top_k", .num 3), ("holding_period", .num 20)]
  , costs_bps := 1, start_date := DEFAULT_START, end_date := BOUNDS_END
  , seed := 42, max_leverage := 1 }

/-- Witness input with a `None` universe and an empty-string frequency:
both are reported as missing. -/
def c4missingPayload : Payload :=
  { task := .val "momentum_daily", «universe» := .null, frequency := .val "" }

/-- Witness input for idempotence. -/
def c9payload : Payload :=
  { task := .val "momentum_weekly", name := .val "custom"
  , tools := .val (.raw "sharpe, drawdown"), costs_bps := .val 2 }

/-- The spec `c9payload` validates to (momentum-weekly template with
the caller's name, tools and cost overrides). -/
def c9spec : StrategySpec :=
  { name := "custom", task := "momentum_weekly"
  , description := "Weekly top-k cross-sectional momentum on ETFs."
  , «universe» := ["SPY", "QQQ", "IWM", "EFA", "EEM", "TLT"]
  , frequency := "weekly"
  , signal := "Compute trailing 26-week compounded returns and rank assets weekly."
  , rules := [("entry", "weekly rank_desc top_k; signal = N-week moving average")
             , ("exit", "rebalance weekly using the smoothed signal")]
  , tools := ["sharpe", "drawdown"]
  , required_metrics := ["ann_return", "sharpe", "max_dd"]
  , params := [("lookback", .num 26), ("top_k", .num 2), ("holding_period", .num 8)]
  , costs_bps := 2, start_date := DEFAULT_START, end_date := BOUNDS_END
  , seed := 42, max_leverage := 1 }

end SpecGuard

namespace Orchestrator

/-- A validated spec used by the machine witnesses. -/
def spec0 : StrategySpec :=
  { name := "demo", task := "momentum_daily", description := ""
  , «universe» := ["SPY"], frequency := "daily", signal := "", rules := []
  , tools := ["sharpe"], required_metrics := [], params := []
  , costs_bps := 1, start_date := 0, end_date := 1, seed := 42, max_leverage := 1 }

/-- Witness environment: code verification fails at every attempt. -/
def env0 : Env :=
  { guardSpec := some spec0, kbRoot := "kb"
  , coderGen := fun _ => some ("p1", "c1")
  , fixerGen := fun a => some ("p" ++ toString a, "hint", "c")
  , codeVerify := fun _ => some "boom"
  , runOutcome := fun _ => .error "never runs"
  , summaryPath := fun _ _ => "s.md"
  , failurePath := fun _ _ _ => "f.md" }

/-- The terminal workflow record of `env0` with budget 1 (both the
first attempt and its retry gate fail, so the run reports a failure). -/
def w1 : WorkflowState :=
  { spec := { spec0 with seed := 43 }
  , code_artifacts := ["p1"]
  , run_logs := ["attempt 1: coder generated strategy at p1",
                 "attempt 1: code verification failed -> boom"]
  , metrics := [], figures := ["f.md"], verdict := "fail"
  , tool_refs := ["sharpe"], attempts := 1 }

/-- Per-node invariant tying the attempt counter to the number of Code
visits so far: it forces the `maxAttempts + 1` bound on Code visits. -/
def attemptInv (maxAttempts : ℕ) (p : Node × GState) (v : ℕ) : Prop :=
  match p.1 with
  | .guard => v = 0 ∧ p.2.attempt = 1
  | .retrieve => v = 0 ∧ p.2.attempt = 1
  | .code => p.2.attempt = v + 1 ∧ (v = 0 ∨ p.2.attempt ≤ maxAttempts)
  | .codeVerify => p.2.attempt = v ∧ (v = 1 ∨ v ≤ maxAttempts) ∧ 1 ≤ v
  | .run => p.2.attempt = v ∧ (v = 1 ∨ v ≤ maxAttempts) ∧ 1 ≤ v
  | .resultVerify => p.2.attempt = v ∧ (v = 1 ∨ v ≤ maxAttempts) ∧ 1 ≤ v
  | .report => v ≤ maxAttempts + 1
  | .done => v ≤ maxAttempts + 1
  | .crash => v ≤ maxAttempts + 1

end Orchestrator

end Backtester

/-! # Theorems -/

namespace Backtester

namespace Retriever

theorem fetchAux_eq (kbRoot : String) (needs : List String) :
    ∀ (seenF seenD : List String),
    (∀ n, n ∈ seenF ↔ (n ∈ seenD ∧ (lookupInfo n).isSome = true)) →
    fetchAux kbRoot seenF needs
      = (eraseDupsFirstAux seenD needs).filterMap
          (fun n => (lookupInfo n).map (toolSpecOf kbRoot n)) := by
  induction needs with
  | nil => intro _ _ _; rfl
  | cons n rest ih =>
    intro seenF seenD hinv
    by_cases hD : n ∈ seenD
    · cases hlk : lookupInfo n with
      | some info =>
        have hF : n ∈ seenF := (hinv n).mpr ⟨hD, by simp [hlk]⟩
        simp only [fetchAux, eraseDupsFirstAux, if_pos hF, if_pos hD]
        exact ih seenF seenD hinv
      | none =>
        have hF : n ∉ seenF := by
          intro h
          have := ((hinv n).mp h).2
          simp [hlk] at this
        simp only [fetchAux, eraseDupsFirstAux, if_neg hF, if_pos hD, hlk]
        exact ih seenF seenD hinv
    · have hF : n ∉ seenF := fun h => hD ((hinv n).mp h).1
      cases hlk : lookupInfo n with
      | some info =>
        simp only [fetchAux, eraseDupsFirstAux, if_neg hF, if_neg hD, hlk,
          List.filterMap_cons, Option.map_some']
        refine congrArg _ ?_
        refine ih (n :: seenF) (n :: seenD) ?_
        intro m
        by_cases hm : m = n
        · subst hm; simp [hlk]
        · simp [hm, hinv m]
      | none =>
        simp only [fetchAux, eraseDupsFirstAux, if_neg hF, if_neg hD, hlk,
          List.filterMap_cons, Option.map_none']
        refine ih seenF (n :: seenD) ?_
        intro m
        by_cases hm : m = n
        · subst hm
          constructor
          · intro hmem; exact absurd hmem hF
          · rintro ⟨_, hsome⟩; simp [hlk] at hsome
        · simp [hm, hinv m]

/-- C6: for every request list, `RetrieverAgent.fetch` returns
descriptors exactly for the requested names present in the static
registry, in first-occurrence order of the request with duplicates
removed; a name absent from the registry is dropped (the function is
total — no error is possible). -/
theorem claim_C6_tool_resolution (kbRoot : String) (needs : List String) :
    fetch kbRoot needs
      = (eraseDupsFirst needs).filterMap
          (fun n => (lookupInfo n).map (toolSpecOf kbRoot n)) :=
  fetchAux_eq kbRoot needs [] [] (by simp)

end Retriever

namespace Verifier

/-- C8: `BTVerifierAgent.evaluate` applies every one of the fixed named
predicates — the failed-name list contains a name exactly when some
registered predicate of that name fails (so all simultaneous failures
are reported together) — and `allPassed` holds exactly when every
predicate passes. -/
theorem claim_C8_all_checks_reported (r : BacktestResult) :
    ((evaluate r).1 = true ↔ ∀ c ∈ CHECKS, c.2 r = true) ∧
    (∀ name, name ∈ (evaluate r).2 ↔ ∃ f, (name, f) ∈ CHECKS ∧ f r = false) := by
  constructor
  · simp only [evaluate, beq_iff_eq, List.length_eq_zero, List.map_eq_nil_iff,
      List.filter_eq_nil_iff, Bool.not_eq_true, Bool.not_eq_true']
    constructor
    · intro h c hc
      have := h c hc
      simpa using this
    · intro h c hc
      simpa using h c hc
  · intro name
    simp only [evaluate, List.mem_map, List.mem_filter, Bool.not_eq_true']
    constructor
    · rintro ⟨c, ⟨hc, hfail⟩, hname⟩
      exact ⟨c.2, by rwa [← hname, Prod.mk.eta], hfail⟩
    · rintro ⟨f, hmem, hfail⟩
      exact ⟨(name, f), ⟨hmem, hfail⟩, rfl⟩

end Verifier

namespace Metrics

theorem sum_indicator_count (l : List ℚ) :
    (l.map (fun r => if 0 < r then (1 : ℚ) else 0)).sum
      = ((l.filter (fun r => 0 < r)).length : ℚ) := by
  induction l with
  | nil => simp
  | cons x xs ih =>
    by_cases hx : 0 < x
    · simp [List.filter_cons, hx, ih]
      ring
    · simp [List.filter_cons, hx, ih]

theorem sum_neg_of_all_neg (l : List ℚ) (h : ∀ x ∈ l, x < 0) (hne : l ≠ []) :
    l.sum < 0 := by
  induction l with
  | nil => exact absurd rfl hne
  | cons x xs ih =>
    rcases eq_or_ne xs [] with hxs | hxs
    · subst hxs; simpa using h x (by simp)
    · have h1 := h x (by simp)
      have h2 := ih (fun y hy => h y (by simp [hy])) hxs
      simp only [List.sum_cons]
      linarith

theorem loss_sum_zero_iff (net : ReturnSeries) :
    loss_sum net = 0 ↔ ∀ r ∈ net, ¬ r < 0 := by
  constructor
  · intro h r hr hneg
    have hmem : r ∈ net.filter (fun r => r < 0) :=
      List.mem_filter.mpr ⟨hr, by simpa using hneg⟩
    have hfne : net.filter (fun r => r < 0) ≠ [] := by
      intro hnil; rw [hnil] at hmem; simp at hmem
    have hlt : (net.filter (fun r => r < 0)).sum < 0 := by
      refine sum_neg_of_all_neg _ (fun x hx => ?_) hfne
      simpa using (List.mem_filter.mp hx).2
    rw [loss_sum] at h
    linarith
  · intro h
    have hnil : net.filter (fun r => r < 0) = [] := by
      refine List.filter_eq_nil_iff.mpr (fun a ha => ?_)
      simpa using h a ha
    simp [loss_sum, hnil]

/-- C7: the metric derivation of `build_backtest_result` subtracts the
uniform cost drag `turnover * costs_bps / 10000` from every period's
return, computes the hit rate as the fraction of periods whose
cost-adjusted return is positive, and yields an infinite profit factor
(`none`) exactly when no cost-adjusted period is negative — otherwise
the ratio of summed gains to the absolute summed losses. -/
theorem claim_C7_cost_adjusted_derivation (rs : ReturnSeries)
    (turnover costs_bps : ℚ) (_hne : rs ≠ []) :
    (∀ i : ℕ, (net_returns rs (cost_drag turnover costs_bps))[i]?
        = (rs[i]?).map (fun r => r - turnover * (costs_bps / 10000))) ∧
    hit_rate (net_returns rs (cost_drag turnover costs_bps))
      = (((net_returns rs (cost_drag turnover costs_bps)).filter
            (fun r => 0 < r)).length : ℚ) / (rs.length : ℚ) ∧
    (profit_factor (net_returns rs (cost_drag turnover costs_bps)) = none
      ↔ ∀ r ∈ net_returns rs (cost_drag turnover costs_bps), ¬ r < 0) ∧
    profit_factor (net_returns rs (cost_drag turnover costs_bps))
      = (if (net_returns rs (cost_drag turnover costs_bps)).any (fun r => r < 0)
         then some (gain_sum (net_returns rs (cost_drag turnover costs_bps))
             / |loss_sum (net_returns rs (cost_drag turnover costs_bps))|)
         else none) := by
  refine ⟨?_, ?_, ?_, ?_⟩
  · intro i
    simp [net_returns, cost_drag, List.getElem?_map]
  · rw [hit_rate, sum_indicator_count, net_returns, List.length_map]
  · rw [profit_factor]
    split_ifs with h
    · simp only [reduceCtorEq, false_iff]
      intro hall
      exact h (loss_sum_zero_iff _ |>.mpr hall)
    · simp only [not_not] at h
      simp only [true_iff]
      exact (loss_sum_zero_iff _).mp h
  · rw [profit_factor]
    by_cases h : loss_sum (net_returns rs (cost_drag turnover costs_bps)) = 0
    · have hall := (loss_sum_zero_iff _).mp h
      have hany : (net_returns rs (cost_drag turnover costs_bps)).any
          (fun r => r < 0) = false := by
        simp only [List.any_eq_false]
        intro x hx
        simpa using hall x hx
      simp [h, hany]
    · have hex : ∃ r ∈ net_returns rs (cost_drag turnover costs_bps), r < 0 := by
        by_contra hno
        push_neg at hno
        exact h ((loss_sum_zero_iff _).mpr (fun r hr => not_lt.mpr (hno r hr)))
      have hany : (net_returns rs (cost_drag turnover costs_bps)).any
          (fun r => r < 0) = true := by
        rcases hex with ⟨r, hr, hlt⟩
        exact List.any_eq_true.mpr ⟨r, hr, by simpa using hlt⟩
      simp [h, hany]

/-- Witness for C7 at `rs0 = [1/10, -1/20]`, turnover 2, costs 1 bp:
the hit-rate equation instantiated. -/
theorem claim_C7_witness :
    hit_rate (net_returns rs0 (cost_drag 2 1))
      = (((net_returns rs0 (cost_drag 2 1)).filter
            (fun r => 0 < r)).length : ℚ) / ((rs0 : ReturnSeries).length : ℚ) :=
  (claim_C7_cost_adjusted_derivation rs0 2 1 (by decide)).2.1

/-- C10: a hit rate produced by the metric derivation on a non-empty
series lies in `[0, 1]`, so the verifier's `hit_rate_bounds` check
cannot appear in the failed-check list of such a result. -/
theorem claim_C10_hit_rate_never_fails (rs : ReturnSeries)
    (turnover costs_bps : ℚ) (r : BacktestResult) (hne : rs ≠ [])
    (hr : r.hit_rate = hit_rate (net_returns rs (cost_drag turnover costs_bps))) :
    (0 ≤ r.hit_rate ∧ r.hit_rate ≤ 1) ∧
      "hit_rate_bounds" ∉ (Verifier.evaluate r).2 := by
  have hlen0 : rs.length ≠ 0 := by
    simpa [List.length_eq_zero] using hne
  have hlen : (0 : ℚ) < (rs.length : ℚ) := by
    exact_mod_cast Nat.pos_of_ne_zero hlen0
  have hbounds : 0 ≤ r.hit_rate ∧ r.hit_rate ≤ 1 := by
    rw [hr, hit_rate, sum_indicator_count]
    have hmaplen : (net_returns rs (cost_drag turnover costs_bps)).length = rs.length := by
      simp [net_returns]
    rw [hmaplen]
    constructor
    · exact div_nonneg (by positivity) (le_of_lt hlen)
    · rw [div_le_one hlen]
      have hle := List.length_filter_le (fun r => decide (0 < r))
        (net_returns rs (cost_drag turnover costs_bps))
      rw [hmaplen] at hle
      exact_mod_cast hle
  refine ⟨hbounds, ?_⟩
  intro hmem
  have hguard : Verifier.hit_rate_guard r = true := by
    simp [Verifier.hit_rate_guard, hbounds.1, hbounds.2]
  rw [Verifier.evaluate] at hmem
  simp only [List.mem_map, List.mem_filter, Bool.not_eq_true'] at hmem
  rcases hmem with ⟨c, ⟨hc, hfail⟩, hname⟩
  simp only [Verifier.CHECKS, List.mem_cons, List.not_mem_nil, or_false] at hc
  rcases hc with h | h | h | h | h | h <;> subst h <;>
    simp_all [Verifier.finite_metrics, Verifier.hit_rate_guard]

/-- Witness for C10: the concrete result `c10res` built from
`rs0` never exhibits a `hit_rate_bounds` failure. -/
theorem claim_C10_witness :
    (0 ≤ c10res.hit_rate ∧ c10res.hit_rate ≤ 1) ∧
      "hit_rate_bounds" ∉ (Verifier.evaluate c10res).2 :=
  claim_C10_hit_rate_never_fails rs0 1 5 c10res (by decide) rfl

end Metrics

namespace Runner

/-- C3 counterexample: a dict payload that does contain a `"returns"`
Series is nonetheless rejected when its `"turnover"` value is
non-numeric (`float(...)` raises), so the claim's unconditional
"accepts a map containing a returns series" is false at this input. -/
theorem claim_C3_counterexample :
    exceptIsOk (prepare_returns c3cex) = false := by decide

/-- C3 (amended): the normalization accepts a bare Series unchanged;
rejects any dict lacking `"returns"` with the contract error (never an
empty success); accepts a dict whose `"returns"` is a Series whenever
its `"turnover"` entry (if any) is numeric, extracting that turnover
(0 when absent) and all numeric-valued non-`returns` entries as
diagnostics; fails when the `"turnover"` value is non-numeric or the
`"returns"` value is not a Series; and rejects any other payload
shape. -/
theorem claim_C3_output_normalization :
    (∀ xs, prepare_returns (.series xs) = .ok (xs, [], 0)) ∧
    (∀ entries, rlookup "returns" entries = none →
        prepare_returns (.dict entries)
          = .error "Strategy output dict must contain 'returns'.") ∧
    (∀ entries xs t, rlookup "returns" entries = some (.series xs) →
        turnoverVal entries = some t →
        prepare_returns (.dict entries) = .ok (xs, numericDiags entries, t)) ∧
    (∀ entries, turnoverVal entries = none →
        exceptIsOk (prepare_returns (.dict entries)) = false) ∧
    (∀ entries v, rlookup "returns" entries = some v → (∀ xs, v ≠ .series xs) →
        exceptIsOk (prepare_returns (.dict entries)) = false) ∧
    prepare_returns .other = .error "Strategy output must be a pandas Series or dict." := by
  refine ⟨fun xs => rfl, ?_, ?_, ?_, ?_, rfl⟩
  · intro entries h
    simp [prepare_returns, h]
  · intro entries xs t hret htv
    rw [turnoverVal] at htv
    rcases hlk : rlookup "turnover" (raw_diag entries) with _ | v
    · rw [hlk] at htv
      simp only [Option.some.injEq] at htv
      subst htv
      simp [prepare_returns, hret, hlk, numericDiags]
    · rw [hlk] at htv
      cases v with
      | num q =>
        simp only [Option.some.injEq] at htv
        subst htv
        simp [prepare_returns, hret, hlk, pyFloat, numericDiags]
      | series xs' => exact absurd htv (by simp)
      | other => exact absurd htv (by simp)
  · intro entries htv
    rw [turnoverVal] at htv
    rcases hret : rlookup "returns" entries with _ | v
    · simp [prepare_returns, hret, exceptIsOk]
    · rcases hlk : rlookup "turnover" (raw_diag entries) with _ | w
      · rw [hlk] at htv; simp at htv
      · rw [hlk] at htv
        cases w with
        | num q => simp at htv
        | series xs' => simp [prepare_returns, hret, hlk, pyFloat, exceptIsOk]
        | other => simp [prepare_returns, hret, hlk, pyFloat, exceptIsOk]
  · intro entries v hret hnotseries
    rcases hlk : rlookup "turnover" (raw_diag entries) with _ | w
    · cases v with
      | series xs => exact absurd rfl (hnotseries xs)
      | num q => simp [prepare_returns, hret, hlk, exceptIsOk]
      | other => simp [prepare_returns, hret, hlk, exceptIsOk]
    · cases w with
      | num q =>
        cases v with
        | series xs => exact absurd rfl (hnotseries xs)
        | num q' => simp [prepare_returns, hret, hlk, pyFloat, exceptIsOk]
        | other => simp [prepare_returns, hret, hlk, pyFloat, exceptIsOk]
      | series xs' => simp [prepare_returns, hret, hlk, pyFloat, exceptIsOk]
      | other => simp [prepare_returns, hret, hlk, pyFloat, exceptIsOk]

/-- Witness for C3 (amended): the dict `c3okEntries` normalizes to its
Series, its numeric diagnostics (including the numeric `"turnover"`,
excluding the non-numeric entry) and turnover 2. -/
theorem claim_C3_witness :
    prepare_returns (.dict c3okEntries)
      = .ok ([1/10], numericDiags c3okEntries, 2) :=
  claim_C3_output_normalization.2.2.1 c3okEntries [1/10] 2 rfl rfl

end Runner

namespace SpecGuard

/-- C4 counterexample: a payload whose universe is the empty list
passes validation (the `merged[k] in (None, "")` membership test never
flags a list value, and the empty set is a subset of the whitelist), so
the claim's "an input whose universe is empty is rejected" is false on
this input. -/
theorem claim_C4_counterexample :
    validate c4emptyUniverse = Except.ok c4spec ∧ c4spec.«universe» = [] := by
  constructor
  · decide
  · rfl

/-- C4 (amended): after merging, `SpecGuardAgent.validate_and_struct`
fails with an error naming exactly the required keys whose merged value
is `None` or the empty string — but an empty-list universe is not
flagged by this check and validates successfully. -/
theorem claim_C4_missing_required_fields :
    (∀ (p : Payload) (t : Template) (ps : Mv (List (String × PVal))),
      List.lookup (pyStrip (pyFirstString p.task p.name)) TASK_LIBRARY = some t →
      mergedParams t (coerce p) = .ok ps →
      missingKeys (mergeAll (pyStrip (pyFirstString p.task p.name)) t (coerce p) ps) ≠ [] →
      validate p = .error ("Strategy spec missing required fields: "
        ++ pyListRepr (missingKeys
            (mergeAll (pyStrip (pyFirstString p.task p.name)) t (coerce p) ps)))) ∧
    (validate c4emptyUniverse).toOption.map (fun s => s.«universe») = some [] := by
  constructor
  · intro p t ps hlk hmp hne
    rw [validate.eq_def]
    simp only [hlk]
    simp only [hmp]
  · decide

/-- Witness for C4 (amended): a `None` universe together with an
empty-string frequency is rejected naming both keys. -/
theorem claim_C4_witness :
    validate c4missingPayload
      = Except.error "Strategy spec missing required fields: ['universe', 'frequency']" := by
  have h := claim_C4_missing_required_fields.1 c4missingPayload momentumDailyTemplate
    (.val momentumDailyTemplate.params) (by decide) (by decide) (by decide)
  exact h.trans (by decide)

theorem alookup_append (k : String) (l₁ l₂ : List (String × PVal)) :
    alookup k (l₁ ++ l₂)
      = (match alookup k l₁ with | some v => some v | none => alookup k l₂) := by
  induction l₁ with
  | nil => simp [alookup]
  | cons e rest ih =>
    by_cases hk : k = e.1
    · simp [alookup, hk]
    · simp [alookup, hk, ih]

theorem alookup_mapVals (k : String) (g : String → PVal → PVal)
    (T : List (String × PVal)) :
    alookup k (T.map (fun e => (e.1, g e.1 e.2))) = (alookup k T).map (g k) := by
  induction T with
  | nil => simp [alookup]
  | cons e rest ih =>
    by_cases hk : k = e.1
    · simp [alookup, hk]
    · simp [alookup, hk, ih]

theorem alookup_isSome_of_mem {k : String} {v : PVal} {T : List (String × PVal)}
    (h : (k, v) ∈ T) : (alookup k T).isSome = true := by
  induction T with
  | nil => cases h
  | cons e rest ih =>
    rcases List.mem_cons.mp h with h | h
    · rw [← h]
      simp [alookup]
    · by_cases hk : k = e.1
      · simp [alookup, hk]
      · simp [alookup, hk, ih h]

theorem alookup_nodup_mem {k : String} {v : PVal} {T : List (String × PVal)}
    (hnd : (T.map Prod.fst).Nodup) (h : (k, v) ∈ T) : alookup k T = some v := by
  induction T with
  | nil => cases h
  | cons e rest ih =>
    rw [List.map_cons, List.nodup_cons] at hnd
    rcases List.mem_cons.mp h with h | h
    · rw [← h]
      simp [alookup]
    · have hk : k ≠ e.1 := by
        intro hkk
        exact hnd.1 (hkk ▸ List.mem_map.mpr ⟨(k, v), h, rfl⟩)
      simp only [alookup, if_neg hk]
      exact ih hnd.2 h

theorem dictUpdate_nil (T : List (String × PVal)) : dictUpdate T [] = T := by
  simp [dictUpdate, alookup]

theorem dictUpdate_idem (T O : List (String × PVal))
    (hnd : (T.map Prod.fst).Nodup) :
    dictUpdate T (dictUpdate T O) = dictUpdate T O := by
  have hmap : T.map (fun e => (e.1, (alookup e.1 (dictUpdate T O)).getD e.2))
      = T.map (fun e => (e.1, (alookup e.1 O).getD e.2)) := by
    refine List.map_congr_left (fun e he => ?_)
    have hTlk : alookup e.1 T = some e.2 := alookup_nodup_mem hnd (by simpa using he)
    have h1 : alookup e.1 (dictUpdate T O) = some ((alookup e.1 O).getD e.2) := by
      rw [dictUpdate, alookup_append, alookup_mapVals e.1
        (fun k v => (alookup k O).getD v) T, hTlk]
      rfl
    rw [h1]
    rfl
  have h1 : (T.map (fun e => (e.1, (alookup e.1 O).getD e.2))).filter
      (fun e => (alookup e.1 T).isNone) = [] := by
    rw [List.filter_eq_nil_iff]
    intro a ha
    rcases List.mem_map.mp ha with ⟨e, he, rfl⟩
    have hs := alookup_isSome_of_mem (k := e.1) (v := e.2) (by simpa using he)
    rcases hlk : alookup e.1 T with _ | w
    · rw [hlk] at hs
      simp at hs
    · simp [hlk]
  have h2 : ((O.filter (fun e => (alookup e.1 T).isNone)).filter
      (fun e => (alookup e.1 T).isNone)) = O.filter (fun e => (alookup e.1 T).isNone) := by
    rw [List.filter_filter]
    simp
  calc dictUpdate T (dictUpdate T O)
      = T.map (fun e => (e.1, (alookup e.1 (dictUpdate T O)).getD e.2)) ++
          (dictUpdate T O).filter (fun e => (alookup e.1 T).isNone) := rfl
    _ = T.map (fun e => (e.1, (alookup e.1 O).getD e.2)) ++
          (dictUpdate T O).filter (fun e => (alookup e.1 T).isNone) := by rw [hmap]
    _ = dictUpdate T O := by
        rw [dictUpdate, List.filter_append, h1, h2]
        simp [dictUpdate]

theorem dictUpdate_self (T : List (String × PVal))
    (hnd : (T.map Prod.fst).Nodup) : dictUpdate T T = T := by
  have h := dictUpdate_idem T [] hnd
  rw [dictUpdate_nil] at h
  exact h

theorem lib_lookup_facts {k : String} {t : Template}
    (h : List.lookup k TASK_LIBRARY = some t) :
    k ≠ "" ∧ pyStrip k = k ∧ (t.params.map Prod.fst).Nodup := by
  simp only [TASK_LIBRARY, List.lookup] at h
  repeat' split at h
  all_goals cases h
  all_goals rename_i hk
  all_goals rw [beq_iff_eq] at hk
  all_goals subst hk
  all_goals exact ⟨by decide, by decide, by decide⟩

theorem modelValidate_ok {m : Merged} {s : StrategySpec}
    (h : modelValidate m = .ok s) :
    m.task = .val s.task ∧ m.name = .val s.name ∧
    m.description = .val s.description ∧
    m.«universe» = .val (.list s.«universe») ∧ m.frequency = .val s.frequency ∧
    m.signal = .val s.signal ∧ m.rules = .val s.rules ∧
    m.tools = .val (.list s.tools) ∧
    m.required_metrics = .val (.list s.required_metrics) ∧
    m.params = .val s.params ∧ m.costs_bps = .val s.costs_bps ∧
    m.start_date = .val s.start_date ∧ m.end_date = .val s.end_date ∧
    m.seed = .val s.seed ∧ m.max_leverage = .val s.max_leverage := by
  rw [modelValidate] at h
  split at h
  · split_ifs at h
    injection h with h
    subst h
    simp_all
  · cases h

theorem merged_ext {a b : Merged}
    (h1 : a.task = b.task) (h2 : a.name = b.name) (h3 : a.description = b.description)
    (h4 : a.«universe» = b.«universe») (h5 : a.frequency = b.frequency)
    (h6 : a.signal = b.signal) (h7 : a.rules = b.rules) (h8 : a.tools = b.tools)
    (h9 : a.required_metrics = b.required_metrics) (h10 : a.params = b.params)
    (h11 : a.costs_bps = b.costs_bps) (h12 : a.start_date = b.start_date)
    (h13 : a.end_date = b.end_date) (h14 : a.seed = b.seed)
    (h15 : a.max_leverage = b.max_leverage) : a = b := by
  obtain ⟨_, _, _, _, _, _, _, _, _, _, _, _, _, _, _⟩ := a
  obtain ⟨_, _, _, _, _, _, _, _, _, _, _, _, _, _, _⟩ := b
  simp_all

/-- C9: the spec validator is idempotent — whenever a payload validates
to a `StrategySpec`, feeding that spec's own field map (`model_dump`)
back through validation succeeds and yields the same spec. -/
theorem claim_C9_validator_idempotent (p : Payload) (s : StrategySpec)
    (h : validate p = .ok s) : validate (dumpPayload s) = .ok s := by
  rw [validate.eq_def] at h
  split at h
  · cases h
  next t hlk =>
    split at h
    · cases h
    next ps hmp =>
      split at h
      next hms =>
        split at h
        · cases h
        next spec hmv =>
          split at h
          · cases h
          next u hen =>
            injection h with h
            have hss := h.symm
            subst hss
            obtain ⟨e1, e2, e3, e4, e5, e6, e7, e8, e9, e10, e11,
              e12, e13, e14, e15⟩ := modelValidate_ok hmv
            have e1' : Mv.val (pyStrip (pyFirstString p.task p.name))
                = Mv.val s.task := e1
            have htn : pyStrip (pyFirstString p.task p.name) = s.task :=
              Mv.val.inj e1'
            obtain ⟨hke, hkstrip, hknd⟩ := lib_lookup_facts hlk
            have htask_ne : s.task ≠ "" := by
              rw [← htn]
              exact hke
            have hps : ps = Mv.val s.params := e10
            have hcp : (coerce p).params = p.params := rfl
            have hdict : dictUpdate t.params s.params = s.params := by
              rcases hp0 : p.params with _ | _ | p0
              · rw [mergedParams.eq_def] at hmp
                simp only [hcp, hp0] at hmp
                rw [hps] at hmp
                injection hmp with hmp2
                have hTp : t.params = s.params := Mv.val.inj hmp2
                rw [← hTp]
                exact dictUpdate_self t.params hknd
              · rw [mergedParams.eq_def] at hmp
                simp only [hcp, hp0] at hmp
                cases hmp
              · rw [mergedParams.eq_def] at hmp
                simp only [hcp, hp0] at hmp
                rw [hps] at hmp
                injection hmp with hmp2
                have hup : dictUpdate t.params p0 = s.params := Mv.val.inj hmp2
                rw [← hup]
                exact dictUpdate_idem t.params p0 hknd
            have hfs : pyFirstString (Pv.val s.task) (Pv.val s.name) = s.task := by
              simp only [pyFirstString]
              rw [if_neg htask_ne]
            have htn' : pyStrip (pyFirstString (dumpPayload s).task
                (dumpPayload s).name) = pyStrip (pyFirstString p.task p.name) := by
              show pyStrip (pyFirstString (Pv.val s.task) (Pv.val s.name))
                = pyStrip (pyFirstString p.task p.name)
              rw [hfs, ← htn]
              exact hkstrip
            have hmp' : mergedParams t (coerce (dumpPayload s))
                = .ok (.val s.params) := by
              rw [mergedParams.eq_def]
              have hcd : (coerce (dumpPayload s)).params = Pv.val s.params := rfl
              simp only [hcd]
              rw [hdict]
            have hm' : mergeAll (pyStrip (pyFirstString p.task p.name)) t
                  (coerce (dumpPayload s)) (Mv.val s.params)
                = mergeAll (pyStrip (pyFirstString p.task p.name)) t (coerce p) ps := by
              refine merged_ext ?_ ?_ ?_ ?_ ?_ ?_ ?_ ?_ ?_ ?_ ?_ ?_ ?_ ?_ ?_
              · rfl
              · exact Eq.trans rfl e2.symm
              · exact Eq.trans rfl e3.symm
              · exact Eq.trans rfl e4.symm
              · exact Eq.trans rfl e5.symm
              · exact Eq.trans rfl e6.symm
              · exact Eq.trans rfl e7.symm
              · exact Eq.trans rfl e8.symm
              · exact Eq.trans rfl e9.symm
              · exact Eq.trans rfl e10.symm
              · exact Eq.trans rfl e11.symm
              · exact Eq.trans rfl e12.symm
              · exact Eq.trans rfl e13.symm
              · exact Eq.trans rfl e14.symm
              · exact Eq.trans rfl e15.symm
            rw [validate.eq_def]
            simp only [htn', hlk, hmp', hm', hms, hmv, hen]
      next ms hms => cases h

/-- Witness for C9: validating the concrete payload `c9payload` yields
`c9spec`, and feeding `c9spec`'s dump back through the validator
returns it unchanged. -/
theorem claim_C9_witness : validate (dumpPayload c9spec) = Except.ok c9spec :=
  claim_C9_validator_idempotent c9payload c9spec (by decide)

end SpecGuard

namespace Orchestrator

theorem attemptInv_step (env : Env) (maxA : ℕ) (p : Node × GState) (v : ℕ)
    (h : attemptInv maxA p v) :
    attemptInv maxA (step env maxA p) (v + (if p.1 = Node.code then 1 else 0)) := by
  obtain ⟨node, s⟩ := p
  cases node with
  | guard =>
    have hv : v = 0 := h.1
    have ha : s.attempt = 1 := h.2
    cases henv : env.guardSpec with
    | none => simp [step, node_guard, henv, attemptInv]; omega
    | some sp => simp [step, node_guard, henv, attemptInv, hv, ha]
  | retrieve =>
    have hv : v = 0 := h.1
    have ha : s.attempt = 1 := h.2
    cases hsp : s.spec with
    | none => simp [step, node_retrieve, hsp, attemptInv]; omega
    | some sp => simp [step, node_retrieve, hsp, attemptInv, hv, ha]
  | code =>
    have ha : s.attempt = v + 1 := h.1
    have hb : v = 0 ∨ s.attempt ≤ maxA := h.2
    cases hsp : s.spec with
    | none => simp [step, node_code, hsp, attemptInv]; omega
    | some sp =>
      by_cases hcond : s.attempt = 1 ∧ strTruthy s.last_error = false ∧ s.failed_checks = []
      · cases hgen : env.coderGen s.attempt with
        | none =>
          rw [hcond.1] at hgen
          simp [step, node_code, hsp, hcond, hgen, attemptInv]
          omega
        | some pc =>
          rw [hcond.1] at hgen
          simp [step, node_code, hsp, hcond, hgen, attemptInv]
          omega
      · cases hgen : env.fixerGen s.attempt with
        | none =>
          simp [step, node_code, hsp, hcond, hgen, attemptInv]
          omega
        | some phc =>
          simp [step, node_code, hsp, hcond, hgen, attemptInv]
          omega
  | codeVerify =>
    have ha : s.attempt = v := h.1
    have hb : v = 1 ∨ v ≤ maxA := h.2.1
    have hc : 1 ≤ v := h.2.2
    cases henv : env.codeVerify s.attempt with
    | none =>
      simp [step, node_code_verify, henv, route_code_verify, attemptInv]
      omega
    | some msg =>
      cases hsp : s.spec with
      | none =>
        simp [step, node_code_verify, henv, increment_attempt, bump_seed, hsp, attemptInv]
        omega
      | some sp =>
        by_cases hroute : maxA < s.attempt + 1
        · simp [step, node_code_verify, henv, increment_attempt, bump_seed, hsp,
            route_code_verify, hroute, attemptInv]
          omega
        · simp [step, node_code_verify, henv, increment_attempt, bump_seed, hsp,
            route_code_verify, hroute, attemptInv]
          omega
  | run =>
    have ha : s.attempt = v := h.1
    have hb : v = 1 ∨ v ≤ maxA := h.2.1
    have hc : 1 ≤ v := h.2.2
    cases henv : env.runOutcome s.attempt with
    | ok r =>
      simp [step, node_run, henv, route_run, attemptInv]
      omega
    | error msg =>
      cases hsp : s.spec with
      | none =>
        simp [step, node_run, henv, increment_attempt, bump_seed, hsp, attemptInv]
        omega
      | some sp =>
        by_cases hroute : maxA < s.attempt + 1
        · simp [step, node_run, henv, increment_attempt, bump_seed, hsp,
            route_run, hroute, attemptInv]
          omega
        · simp [step, node_run, henv, increment_attempt, bump_seed, hsp,
            route_run, hroute, attemptInv]
          omega
  | resultVerify =>
    have ha : s.attempt = v := h.1
    have hb : v = 1 ∨ v ≤ maxA := h.2.1
    have hc : 1 ≤ v := h.2.2
    cases hres : s.result with
    | none => simp [step, node_result_verify, hres, attemptInv]; omega
    | some r =>
      by_cases hev : (Verifier.evaluate r).1 = true
      · simp [step, node_result_verify, hres, hev, route_result_verify, attemptInv]
        omega
      · cases hsp : s.spec with
        | none =>
          simp [step, node_result_verify, hres, hev, increment_attempt,
            bump_seed, hsp, attemptInv]
          omega
        | some sp =>
          by_cases hroute : maxA < s.attempt + 1
          · simp [step, node_result_verify, hres, hev, increment_attempt, bump_seed,
              hsp, route_result_verify, hroute, attemptInv]
            omega
          · simp [step, node_result_verify, hres, hev, increment_attempt, bump_seed,
              hsp, route_result_verify, hroute, attemptInv]
            omega
  | report =>
    have hbnd : v ≤ maxA + 1 := h
    cases hsp : s.spec with
    | none => simpa [step, node_report, hsp, attemptInv] using hbnd
    | some sp => simpa [step, node_report, hsp, attemptInv] using hbnd
  | done => simpa [step, attemptInv] using (h : v ≤ maxA + 1)
  | crash => simpa [step, attemptInv] using (h : v ≤ maxA + 1)

theorem trace_attemptInv (env : Env) (maxA : ℕ) :
    ∀ n, attemptInv maxA (trace env maxA n) (codeVisits env maxA n)
  | 0 => by
    constructor
    · rfl
    · rfl
  | n + 1 => by
    have h := attemptInv_step env maxA (trace env maxA n) (codeVisits env maxA n)
      (trace_attemptInv env maxA n)
    simpa [trace, codeVisits] using h

theorem attemptInv_bound (maxA : ℕ) (p : Node × GState) (v : ℕ)
    (h : attemptInv maxA p v) : v ≤ maxA + 1 := by
  obtain ⟨node, s⟩ := p
  cases node <;> simp [attemptInv] at h <;> omega

/-- C1: along every run of the Orchestrator with budget `maxAttempts`,
the Code stage is visited at most `maxAttempts + 1` times; moreover each
of the three conditional edges retries back to Code exactly when the
stage failed and the (already incremented) attempt counter is still at
most `maxAttempts`, and stops into Report exactly when the stage failed
with the counter beyond `maxAttempts`. -/
theorem claim_C1_code_visit_budget (env : Env) (maxAttempts n : ℕ) :
    codeVisits env maxAttempts n ≤ maxAttempts + 1 ∧
    (∀ s : GState, (route_code_verify maxAttempts s).1 = Route.retry ↔
        (s.code_ok.getD false = false ∧ s.attempt ≤ maxAttempts)) ∧
    (∀ s : GState, (route_code_verify maxAttempts s).1 = Route.stop ↔
        (s.code_ok.getD false = false ∧ maxAttempts < s.attempt)) ∧
    (∀ s : GState, (route_run maxAttempts s).1 = Route.retry ↔
        (s.runtime_ok.getD false = false ∧ s.attempt ≤ maxAttempts)) ∧
    (∀ s : GState, (route_run maxAttempts s).1 = Route.stop ↔
        (s.runtime_ok.getD false = false ∧ maxAttempts < s.attempt)) ∧
    (∀ s : GState, (route_result_verify maxAttempts s).1 = Route.retry ↔
        (s.verifier_ok.getD false = false ∧ s.attempt ≤ maxAttempts)) ∧
    (∀ s : GState, (route_result_verify maxAttempts s).1 = Route.stop ↔
        (s.verifier_ok.getD false = false ∧ maxAttempts < s.attempt)) := by
  refine ⟨attemptInv_bound maxAttempts _ _ (trace_attemptInv env maxAttempts n), ?_, ?_, ?_, ?_, ?_, ?_⟩ <;>
    intro s <;>
    simp only [route_code_verify, route_run, route_result_verify] <;>
    split_ifs with h1 h2 <;>
    simp_all <;> omega

theorem step_backedge (env : Env) (maxA : ℕ) (p : Node × GState)
    (hn : p.1 = Node.codeVerify ∨ p.1 = Node.run ∨ p.1 = Node.resultVerify)
    (hc : (step env maxA p).1 = Node.code) :
    (step env maxA p).2.attempt = p.2.attempt + 1 ∧
    (step env maxA p).2.spec
      = p.2.spec.map (fun sp => { sp with seed := sp.seed + 1 }) := by
  obtain ⟨node, s⟩ := p
  rcases hn with hn | hn | hn <;> subst hn
  · cases henv : env.codeVerify s.attempt with
    | none =>
      simp [step, node_code_verify, henv, route_code_verify] at hc
    | some msg =>
      cases hsp : s.spec with
      | none => simp [step, node_code_verify, henv, increment_attempt, bump_seed, hsp] at hc
      | some sp =>
        by_cases hroute : maxA < s.attempt + 1
        · simp [step, node_code_verify, henv, increment_attempt, bump_seed, hsp,
            route_code_verify, hroute] at hc
        · simp [step, node_code_verify, henv, increment_attempt, bump_seed, hsp,
            route_code_verify, hroute]
  · cases henv : env.runOutcome s.attempt with
    | ok r => simp [step, node_run, henv, route_run] at hc
    | error msg =>
      cases hsp : s.spec with
      | none => simp [step, node_run, henv, increment_attempt, bump_seed, hsp] at hc
      | some sp =>
        by_cases hroute : maxA < s.attempt + 1
        · simp [step, node_run, henv, increment_attempt, bump_seed, hsp,
            route_run, hroute] at hc
        · simp [step, node_run, henv, increment_attempt, bump_seed, hsp,
            route_run, hroute]
  · cases hres : s.result with
    | none => simp [step, node_result_verify, hres] at hc
    | some r =>
      by_cases hev : (Verifier.evaluate r).1 = true
      · simp [step, node_result_verify, hres, hev, route_result_verify] at hc
      · cases hsp : s.spec with
        | none => simp [step, node_result_verify, hres, hev, increment_attempt,
            bump_seed, hsp] at hc
        | some sp =>
          by_cases hroute : maxA < s.attempt + 1
          · simp [step, node_result_verify, hres, hev, increment_attempt, bump_seed,
              hsp, route_result_verify, hroute] at hc
          · simp [step, node_result_verify, hres, hev, increment_attempt, bump_seed,
              hsp, route_result_verify, hroute]

theorem step_ne_guard (env : Env) (maxA : ℕ) (p : Node × GState) :
    (step env maxA p).1 ≠ Node.guard := by
  obtain ⟨node, s⟩ := p
  cases node <;> simp only [step] <;> (repeat' split) <;> simp

theorem step_spec_only_seed (env : Env) (maxA : ℕ) (p : Node × GState)
    (hng : p.1 ≠ Node.guard) (sp sp' : StrategySpec) (hsp : p.2.spec = some sp)
    (hsp' : (step env maxA p).2.spec = some sp') :
    sp' = sp ∨ sp' = { sp with seed := sp.seed + 1 } := by
  obtain ⟨node, s⟩ := p
  simp only at hsp
  cases node with
  | guard => exact absurd rfl hng
  | retrieve =>
    simp [step, node_retrieve, hsp] at hsp'
    exact Or.inl hsp'.symm
  | code =>
    by_cases hcond : s.attempt = 1 ∧ strTruthy s.last_error = false ∧ s.failed_checks = []
    · cases hgen : env.coderGen s.attempt with
      | none =>
        rw [hcond.1] at hgen
        simp [step, node_code, hsp, hcond, hgen] at hsp'
        exact Or.inl hsp'.symm
      | some pc =>
        rw [hcond.1] at hgen
        simp [step, node_code, hsp, hcond, hgen] at hsp'
        exact Or.inl hsp'.symm
    · cases hgen : env.fixerGen s.attempt with
      | none =>
        simp [step, node_code, hsp, hcond, hgen] at hsp'
        exact Or.inl hsp'.symm
      | some phc =>
        simp [step, node_code, hsp, hcond, hgen] at hsp'
        exact Or.inl hsp'.symm
  | codeVerify =>
    cases henv : env.codeVerify s.attempt with
    | none =>
      simp [step, node_code_verify, henv, route_code_verify, hsp] at hsp'
      exact Or.inl hsp'.symm
    | some msg =>
      by_cases hroute : maxA < s.attempt + 1 <;>
        simp [step, node_code_verify, henv, increment_attempt, bump_seed, hsp,
          route_code_verify, hroute] at hsp' <;>
        exact Or.inr hsp'.symm
  | run =>
    cases henv : env.runOutcome s.attempt with
    | ok r =>
      simp [step, node_run, henv, route_run, hsp] at hsp'
      exact Or.inl hsp'.symm
    | error msg =>
      by_cases hroute : maxA < s.attempt + 1 <;>
        simp [step, node_run, henv, increment_attempt, bump_seed, hsp,
          route_run, hroute] at hsp' <;>
        exact Or.inr hsp'.symm
  | resultVerify =>
    cases hres : s.result with
    | none =>
      simp [step, node_result_verify, hres, hsp] at hsp'
      exact Or.inl hsp'.symm
    | some r =>
      by_cases hev : (Verifier.evaluate r).1 = true
      · simp [step, node_result_verify, hres, hev, route_result_verify, hsp] at hsp'
        exact Or.inl hsp'.symm
      · by_cases hroute : maxA < s.attempt + 1 <;>
          simp [step, node_result_verify, hres, hev, increment_attempt, bump_seed,
            hsp, route_result_verify, hroute] at hsp' <;>
          exact Or.inr hsp'.symm
  | report =>
    simp [step, node_report, hsp] at hsp'
    exact Or.inl hsp'.symm
  | done =>
    simp [step, hsp] at hsp'
    exact Or.inl hsp'.symm
  | crash =>
    simp [step, hsp] at hsp'
    exact Or.inl hsp'.symm

/-- C2: every back-edge from a failed CodeVerify, Run or ResultVerify
into Code increments the attempt counter by exactly 1 and the spec's
seed by exactly 1, and no transition of the machine ever changes a
`StrategySpec` field other than the seed once the spec exists. -/
theorem claim_C2_backedge_increments (env : Env) (maxAttempts n : ℕ) :
    (((trace env maxAttempts n).1 = Node.codeVerify ∨
      (trace env maxAttempts n).1 = Node.run ∨
      (trace env maxAttempts n).1 = Node.resultVerify) →
     (trace env maxAttempts (n + 1)).1 = Node.code →
     ((trace env maxAttempts (n + 1)).2.attempt
        = (trace env maxAttempts n).2.attempt + 1 ∧
      (trace env maxAttempts (n + 1)).2.spec
        = ((trace env maxAttempts n).2.spec).map
            (fun sp => { sp with seed := sp.seed + 1 }))) ∧
    (∀ sp sp', (trace env maxAttempts n).2.spec = some sp →
      (trace env maxAttempts (n + 1)).2.spec = some sp' →
      sp' = { sp with seed := sp'.seed }) := by
  constructor
  · intro hn hc
    exact step_backedge env maxAttempts (trace env maxAttempts n) hn hc
  · intro sp sp' hsp hsp'
    have hng : (trace env maxAttempts n).1 ≠ Node.guard := by
      cases n with
      | zero =>
        intro _
        have : initState.spec = some sp := hsp
        simp [initState] at this
      | succ m => exact step_ne_guard env maxAttempts (trace env maxAttempts m)
    have h := step_spec_only_seed env maxAttempts (trace env maxAttempts n)
      hng sp sp' hsp hsp'
    rcases h with h | h <;> subst h <;> rfl

theorem claim_C2_witness :
    (trace env0 2 4).2.attempt = (trace env0 2 3).2.attempt + 1 ∧
    (trace env0 2 4).2.spec
      = ((trace env0 2 3).2.spec).map (fun sp => { sp with seed := sp.seed + 1 }) :=
  (claim_C2_backedge_increments env0 2 3).1 (Or.inl (by decide)) (by decide)

theorem step_result_mono (env : Env) (maxA : ℕ) (p : Node × GState)
    (h : p.2.result.isSome = true) : ((step env maxA p).2.result).isSome = true := by
  obtain ⟨node, s⟩ := p
  simp only at h
  cases node with
  | guard =>
    cases henv : env.guardSpec <;> simp [step, node_guard, henv] <;> exact h
  | retrieve =>
    cases hsp : s.spec <;> simp [step, node_retrieve, hsp] <;> exact h
  | code =>
    cases hsp : s.spec with
    | none => simp [step, node_code, hsp] <;> exact h
    | some sp =>
      by_cases hcond : s.attempt = 1 ∧ strTruthy s.last_error = false ∧ s.failed_checks = []
      · cases hgen : env.coderGen s.attempt <;> rw [hcond.1] at hgen <;>
          simp [step, node_code, hsp, hcond, hgen] <;> exact h
      · cases hgen : env.fixerGen s.attempt <;>
          simp [step, node_code, hsp, hcond, hgen] <;> exact h
  | codeVerify =>
    cases henv : env.codeVerify s.attempt with
    | none => simp [step, node_code_verify, henv, route_code_verify] <;> exact h
    | some msg =>
      cases hsp : s.spec with
      | none =>
        simp [step, node_code_verify, henv, increment_attempt, bump_seed, hsp] <;> exact h
      | some sp =>
        by_cases hroute : maxA < s.attempt + 1 <;>
          simp [step, node_code_verify, henv, increment_attempt, bump_seed, hsp,
            route_code_verify, hroute] <;> exact h
  | run =>
    cases henv : env.runOutcome s.attempt with
    | ok r => simp [step, node_run, henv, route_run]
    | error msg =>
      cases hsp : s.spec with
      | none =>
        simp [step, node_run, henv, increment_attempt, bump_seed, hsp] <;> exact h
      | some sp =>
        by_cases hroute : maxA < s.attempt + 1 <;>
          simp [step, node_run, henv, increment_attempt, bump_seed, hsp,
            route_run, hroute] <;> exact h
  | resultVerify =>
    cases hres : s.result with
    | none => rw [hres] at h; simp at h
    | some r =>
      by_cases hev : (Verifier.evaluate r).1 = true
      · simp [step, node_result_verify, hres, hev, route_result_verify]
      · cases hsp : s.spec with
        | none =>
          simp [step, node_result_verify, hres, hev, increment_attempt,
            bump_seed, hsp] <;> exact h
        | some sp =>
          by_cases hroute : maxA < s.attempt + 1 <;>
            simp [step, node_result_verify, hres, hev, increment_attempt,
              bump_seed, hsp, route_result_verify, hroute] <;> exact h
  | report =>
    cases hsp : s.spec <;> simp [step, node_report, hsp] <;> exact h
  | done => simpa [step] using h
  | crash => simpa [step] using h

theorem step_verdict_binary (env : Env) (maxA : ℕ) (p : Node × GState)
    (h : p.2.verdict = "pass" ∨ p.2.verdict = "fail") :
    (step env maxA p).2.verdict = "pass" ∨ (step env maxA p).2.verdict = "fail" := by
  obtain ⟨node, s⟩ := p
  simp only at h
  cases node with
  | guard =>
    cases henv : env.guardSpec <;> simp [step, node_guard, henv] <;> exact h
  | retrieve =>
    cases hsp : s.spec <;> simp [step, node_retrieve, hsp] <;> exact h
  | code =>
    cases hsp : s.spec with
    | none => simp [step, node_code, hsp] <;> exact h
    | some sp =>
      by_cases hcond : s.attempt = 1 ∧ strTruthy s.last_error = false ∧ s.failed_checks = []
      · cases hgen : env.coderGen s.attempt <;> rw [hcond.1] at hgen <;>
          simp [step, node_code, hsp, hcond, hgen] <;> exact h
      · cases hgen : env.fixerGen s.attempt <;>
          simp [step, node_code, hsp, hcond, hgen] <;> exact h
  | codeVerify =>
    cases henv : env.codeVerify s.attempt with
    | none => simp [step, node_code_verify, henv, route_code_verify] <;> exact h
    | some msg =>
      cases hsp : s.spec with
      | none =>
        simp [step, node_code_verify, henv, increment_attempt, bump_seed, hsp] <;> exact h
      | some sp =>
        by_cases hroute : maxA < s.attempt + 1 <;>
          simp [step, node_code_verify, henv, increment_attempt, bump_seed, hsp,
            route_code_verify, hroute] <;> exact h
  | run =>
    cases henv : env.runOutcome s.attempt with
    | ok r => simp [step, node_run, henv, route_run] <;> exact h
    | error msg =>
      cases hsp : s.spec with
      | none =>
        simp [step, node_run, henv, increment_attempt, bump_seed, hsp] <;> exact h
      | some sp =>
        by_cases hroute : maxA < s.attempt + 1 <;>
          simp [step, node_run, henv, increment_attempt, bump_seed, hsp,
            route_run, hroute] <;> exact h
  | resultVerify =>
    cases hres : s.result with
    | none => simp [step, node_result_verify, hres] <;> exact h
    | some r =>
      by_cases hev : (Verifier.evaluate r).1 = true
      · simp [step, node_result_verify, hres, hev, route_result_verify]
      · cases hsp : s.spec with
        | none =>
          simp [step, node_result_verify, hres, hev, increment_attempt,
            bump_seed, hsp] <;> exact h
        | some sp =>
          by_cases hroute : maxA < s.attempt + 1 <;>
            simp [step, node_result_verify, hres, hev, increment_attempt,
              bump_seed, hsp, route_result_verify, hroute] <;> exact h
  | report =>
    cases hsp : s.spec <;> simp [step, node_report, hsp] <;> exact h
  | done => simpa [step] using h
  | crash => simpa [step] using h

theorem step_verdict_pass_src (env : Env) (maxA : ℕ) (p : Node × GState)
    (h : (step env maxA p).2.verdict = "pass") :
    p.2.verdict = "pass" ∨
    (p.1 = Node.resultVerify ∧
      ∃ r, p.2.result = some r ∧ (Verifier.evaluate r).1 = true) := by
  obtain ⟨node, s⟩ := p
  cases node with
  | guard =>
    cases henv : env.guardSpec <;> simp [step, node_guard, henv] at h <;> exact Or.inl h
  | retrieve =>
    cases hsp : s.spec <;> simp [step, node_retrieve, hsp] at h <;> exact Or.inl h
  | code =>
    cases hsp : s.spec with
    | none => simp [step, node_code, hsp] at h; exact Or.inl h
    | some sp =>
      by_cases hcond : s.attempt = 1 ∧ strTruthy s.last_error = false ∧ s.failed_checks = []
      · cases hgen : env.coderGen s.attempt <;> rw [hcond.1] at hgen <;>
          simp [step, node_code, hsp, hcond, hgen] at h <;> exact Or.inl h
      · cases hgen : env.fixerGen s.attempt <;>
          simp [step, node_code, hsp, hcond, hgen] at h <;> exact Or.inl h
  | codeVerify =>
    cases henv : env.codeVerify s.attempt with
    | none => simp [step, node_code_verify, henv, route_code_verify] at h; exact Or.inl h
    | some msg =>
      cases hsp : s.spec with
      | none =>
        simp [step, node_code_verify, henv, increment_attempt, bump_seed, hsp] at h
        exact Or.inl h
      | some sp =>
        by_cases hroute : maxA < s.attempt + 1 <;>
          simp [step, node_code_verify, henv, increment_attempt, bump_seed, hsp,
            route_code_verify, hroute] at h <;> exact Or.inl h
  | run =>
    cases henv : env.runOutcome s.attempt with
    | ok r => simp [step, node_run, henv, route_run] at h; exact Or.inl h
    | error msg =>
      cases hsp : s.spec with
      | none =>
        simp [step, node_run, henv, increment_attempt, bump_seed, hsp] at h
        exact Or.inl h
      | some sp =>
        by_cases hroute : maxA < s.attempt + 1 <;>
          simp [step, node_run, henv, increment_attempt, bump_seed, hsp,
            route_run, hroute] at h <;> exact Or.inl h
  | resultVerify =>
    cases hres : s.result with
    | none => simp [step, node_result_verify, hres] at h; exact Or.inl h
    | some r =>
      by_cases hev : (Verifier.evaluate r).1 = true
      · exact Or.inr ⟨rfl, r, by simp [hres], hev⟩
      · cases hsp : s.spec with
        | none =>
          simp [step, node_result_verify, hres, hev, increment_attempt,
            bump_seed, hsp] at h
          exact Or.inl h
        | some sp =>
          by_cases hroute : maxA < s.attempt + 1 <;>
            simp [step, node_result_verify, hres, hev, increment_attempt,
              bump_seed, hsp, route_result_verify, hroute] at h <;> exact Or.inl h
  | report =>
    cases hsp : s.spec <;> simp [step, node_report, hsp] at h <;> exact Or.inl h
  | done => exact Or.inl h
  | crash => exact Or.inl h

theorem step_to_done (env : Env) (maxA : ℕ) (p : Node × GState)
    (h : (step env maxA p).1 = Node.done) :
    p.1 = Node.report ∨ p.1 = Node.done := by
  obtain ⟨node, s⟩ := p
  cases node with
  | guard => cases henv : env.guardSpec <;> simp [step, node_guard, henv] at h
  | retrieve => cases hsp : s.spec <;> simp [step, node_retrieve, hsp] at h
  | code =>
    cases hsp : s.spec with
    | none => simp [step, node_code, hsp] at h
    | some sp =>
      by_cases hcond : s.attempt = 1 ∧ strTruthy s.last_error = false ∧ s.failed_checks = []
      · cases hgen : env.coderGen s.attempt <;> rw [hcond.1] at hgen <;>
          simp [step, node_code, hsp, hcond, hgen] at h
      · cases hgen : env.fixerGen s.attempt <;>
          simp [step, node_code, hsp, hcond, hgen] at h
  | codeVerify =>
    cases henv : env.codeVerify s.attempt with
    | none => simp [step, node_code_verify, henv, route_code_verify] at h
    | some msg =>
      cases hsp : s.spec with
      | none => simp [step, node_code_verify, henv, increment_attempt, bump_seed, hsp] at h
      | some sp =>
        by_cases hroute : maxA < s.attempt + 1 <;>
          simp [step, node_code_verify, henv, increment_attempt, bump_seed, hsp,
            route_code_verify, hroute] at h
  | run =>
    cases henv : env.runOutcome s.attempt with
    | ok r => simp [step, node_run, henv, route_run] at h
    | error msg =>
      cases hsp : s.spec with
      | none => simp [step, node_run, henv, increment_attempt, bump_seed, hsp] at h
      | some sp =>
        by_cases hroute : maxA < s.attempt + 1 <;>
          simp [step, node_run, henv, increment_attempt, bump_seed, hsp,
            route_run, hroute] at h
  | resultVerify =>
    cases hres : s.result with
    | none => simp [step, node_result_verify, hres] at h
    | some r =>
      by_cases hev : (Verifier.evaluate r).1 = true
      · simp [step, node_result_verify, hres, hev, route_result_verify] at h
      · cases hsp : s.spec with
        | none => simp [step, node_result_verify, hres, hev, increment_attempt,
            bump_seed, hsp] at h
        | some sp =>
          by_cases hroute : maxA < s.attempt + 1 <;>
            simp [step, node_result_verify, hres, hev, increment_attempt,
              bump_seed, hsp, route_result_verify, hroute] at h
  | report => exact Or.inl rfl
  | done => exact Or.inr rfl
  | crash => simp [step] at h

theorem trace_verdict_binary (env : Env) (maxA : ℕ) :
    ∀ n, (trace env maxA n).2.verdict = "pass" ∨ (trace env maxA n).2.verdict = "fail"
  | 0 => Or.inr rfl
  | n + 1 => step_verdict_binary env maxA (trace env maxA n) (trace_verdict_binary env maxA n)

theorem trace_pass_result (env : Env) (maxA : ℕ) :
    ∀ n, (trace env maxA n).2.verdict = "pass" →
      ((trace env maxA n).2.result).isSome = true
  | 0 => fun hp => by simp [trace, initState] at hp
  | n + 1 => fun hp => by
    rcases step_verdict_pass_src env maxA (trace env maxA n) hp with hprev | ⟨_, r, hres, _⟩
    · exact step_result_mono env maxA (trace env maxA n) (trace_pass_result env maxA n hprev)
    · exact step_result_mono env maxA (trace env maxA n) (by rw [hres]; rfl)

theorem trace_pass_from_verify (env : Env) (maxA : ℕ) :
    ∀ n, (trace env maxA n).2.verdict = "pass" →
      ∃ k, k < n ∧ resultVerifyPassed env maxA k = true
  | 0 => fun hp => by simp [trace, initState] at hp
  | n + 1 => fun hp => by
    rcases step_verdict_pass_src env maxA (trace env maxA n) hp with hprev | ⟨hrv, r, hres, hev⟩
    · rcases trace_pass_from_verify env maxA n hprev with ⟨k, hk, hpk⟩
      exact ⟨k, Nat.lt_succ_of_lt hk, hpk⟩
    · refine ⟨n, Nat.lt_succ_self n, ?_⟩
      simp [resultVerifyPassed, hrv, hres, hev]

theorem report_step_workflow (env : Env) (maxA : ℕ) (s : GState) (w : WorkflowState)
    (hres : s.verdict = "pass" → s.result.isSome = true)
    (hdone : (step env maxA (Node.report, s)).1 = Node.done)
    (hw : (step env maxA (Node.report, s)).2.workflow = some w) :
    w.verdict = s.verdict ∧
    (w.metrics ≠ [] ↔ w.verdict = "pass") ∧
    (w.verdict = "pass" →
      w.metrics.map Prod.fst = ["ann_return", "ann_vol", "sharpe", "max_dd", "turnover"]) := by
  cases hsp : s.spec with
  | none => simp [step, node_report, hsp] at hdone
  | some sp =>
    by_cases hverd : s.verdict = "pass"
    · cases hr : s.result with
      | none =>
        have := hres hverd
        rw [hr] at this
        cases this
      | some r =>
        simp [step, node_report, hsp, hverd, hr] at hw
        constructor
        · rw [← hw]
          exact hverd.symm
        constructor
        · rw [← hw]
          simp [hverd]
        · intro _
          rw [← hw]
          rfl
    · simp [step, node_report, hsp, hverd] at hw
      constructor
      · rw [← hw]
      constructor
      · rw [← hw]
        simp
        exact fun heq => absurd heq hverd
      · intro hp
        rw [← hw] at hp
        exact absurd hp hverd

theorem done_workflow (env : Env) (maxA : ℕ) :
    ∀ n w, (trace env maxA n).1 = Node.done →
      (trace env maxA n).2.workflow = some w →
      (w.verdict = "pass" ∨ w.verdict = "fail") ∧
      (w.metrics ≠ [] ↔ w.verdict = "pass") ∧
      (w.verdict = "pass" →
        w.metrics.map Prod.fst = ["ann_return", "ann_vol", "sharpe", "max_dd", "turnover"]) ∧
      (w.verdict = "pass" → ∃ k, k < n ∧ resultVerifyPassed env maxA k = true)
  | 0 => fun w hdone _ => by simp [trace, initState] at hdone
  | n + 1 => fun w hdone hw => by
    rcases step_to_done env maxA (trace env maxA n) hdone with hrep | hdn
    · rcases htr : trace env maxA n with ⟨node, s⟩
      rw [htr] at hrep
      simp only at hrep
      subst hrep
      have hstep : trace env maxA (n + 1) = step env maxA (Node.report, s) := by
        rw [trace, htr]
      rw [hstep] at hw hdone
      have hres : s.verdict = "pass" → s.result.isSome = true := by
        intro hp
        have := trace_pass_result env maxA n
        rw [htr] at this
        exact this hp
      rcases report_step_workflow env maxA s w hres hdone hw with ⟨hv, hiff, hkeys⟩
      have hbin := trace_verdict_binary env maxA n
      rw [htr] at hbin
      refine ⟨by rw [hv]; exact hbin, hiff, hkeys, ?_⟩
      intro hp
      have hpass : s.verdict = "pass" := by rw [← hv]; exact hp
      have := trace_pass_from_verify env maxA n
      rw [htr] at this
      rcases this hpass with ⟨k, hk, hpk⟩
      exact ⟨k, Nat.lt_succ_of_lt hk, hpk⟩
    · have hstep : trace env maxA (n + 1) = step env maxA (trace env maxA n) := by
        rw [trace]
      rcases htr : trace env maxA n with ⟨node, s⟩
      rw [htr] at hdn
      simp only at hdn
      subst hdn
      rw [htr, step] at hstep
      rw [hstep] at hw
      simp only at hw
      have ih := done_workflow env maxA n w (by rw [htr]) (by rw [htr]; exact hw)
      rcases ih with ⟨h1, h2, h3, h4⟩
      refine ⟨h1, h2, h3, ?_⟩
      intro hp
      rcases h4 hp with ⟨k, hk, hpk⟩
      exact ⟨k, Nat.lt_succ_of_lt hk, hpk⟩

/-- C5: in every terminal `WorkflowState`, the metrics map is non-empty
exactly when the verdict is `"pass"`, a passing outcome carries exactly
the five metric keys, and a run in which result verification never
passed terminates with verdict `"fail"` and an empty metrics map. -/
theorem claim_C5_outcome_metrics (env : Env) (maxAttempts n : ℕ)
    (hdone : (trace env maxAttempts n).1 = Node.done) (w : WorkflowState)
    (hw : (trace env maxAttempts n).2.workflow = some w) :
    (w.metrics ≠ [] ↔ w.verdict = "pass") ∧
    (w.verdict = "pass" →
      w.metrics.map Prod.fst = ["ann_return", "ann_vol", "sharpe", "max_dd", "turnover"]) ∧
    ((∀ k, k < n → resultVerifyPassed env maxAttempts k = false) →
      (w.verdict = "fail" ∧ w.metrics = [])) := by
  rcases done_workflow env maxAttempts n w hdone hw with ⟨hbin, hiff, hkeys, hsrc⟩
  refine ⟨hiff, hkeys, ?_⟩
  intro hnp
  rcases hbin with hp | hf
  · rcases hsrc hp with ⟨k, hk, hpk⟩
    rw [hnp k hk] at hpk
    cases hpk
  · have hne : w.verdict ≠ "pass" := by
      rw [hf]
      decide
    have hm : w.metrics = [] := by
      by_contra hmne
      exact hne (hiff.mp hmne)
    exact ⟨hf, hm⟩

theorem claim_C5_witness : w1.verdict = "fail" ∧ w1.metrics = [] := by
  have h := claim_C5_outcome_metrics env0 1 5 (by decide) w1 (by decide)
  refine h.2.2 ?_
  intro k hk
  interval_cases k <;> rfl

end Orchestrator

end Backtester
